import Mathlib

/-!
Verification of the All-In-Trading-Bot snapshot/text pipeline and
news/social dedup pipeline against its natural-language specification.

The Python sources are shallowly embedded: dictionaries become association
lists or structures of `Option`-valued fields, Python floats become `ℚ`,
`datetime` values become integer minute counts (for window filtering) or
integer day counts (for snapshot retention), and fallible operations
return `Option`.  Each embedded definition mirrors one Python function and
keeps its name where Lean allows.
-/

namespace TradingBot

/-! ## RegimeClassifier.calculate_fear_greed (newsentiment.py, lines 934-944)

Python floats are modelled as rationals.  `int(x)` in Python truncates
toward zero; for the values produced here (`((avg+1)/2)*100` with
sentiments in `[-1,1]`) the argument is nonnegative, but we model the
truncation faithfully for all rationals. -/

/-- Python `int(q)`: truncation toward zero. -/
def pyInt (q : ℚ) : ℤ := q.num.tdiv q.den

/-- Result record of `calculate_fear_greed` (`{"fear": .., "greed": ..}`). -/
structure FearGreed where
  fear : ℤ
  greed : ℤ
deriving DecidableEq, Repr

/-- Embedding of `RegimeClassifier.calculate_fear_greed`:
`if not sentiments: return {"fear":50,"greed":50}`;
`avg = sum/len`; `greed_pct = int(((avg+1)/2)*100)`; `fear = 100 - greed`. -/
def calculate_fear_greed (sentiments : List ℚ) : FearGreed :=
  if sentiments = [] then { fear := 50, greed := 50 }
  else
    let avg : ℚ := sentiments.sum / sentiments.length
    let greed_pct : ℤ := pyInt (((avg + 1) / 2) * 100)
    { fear := 100 - greed_pct, greed := greed_pct }

/-! ## The regime rule ladder (newsentiment.py, lines 945-965)

In the source this decision ladder sits (unreachably) after the `return`
of `calculate_fear_greed`; the caller `SocialSentimentLayer.run`
(line 1025) invokes it as `self.regime_classifier.classify(...)`, a method
that does not exist on `RegimeClassifier`.  The ladder below embeds that
orphaned body, operating on the average sentiment and average momentum it
computes from its inputs. -/

/-- Embedding of the ordered regime rule ladder from the orphaned
`classify` body inside `RegimeClassifier`. -/
def classify (avgSentiment avgMomentum : ℚ) : String :=
  if avgSentiment < -(3/10) ∧ avgMomentum > 2 then "Elevated Fear"
  else if avgSentiment > 4/10 ∧ avgMomentum > 3 then "Euphoria"
  else if |avgSentiment| < 1/10 then "Disagreement"
  else if avgMomentum > 5 then "Volatility Warning"
  else if avgSentiment > 5/10 then "Hype Cycle"
  else "Normal"

/-- The rule list exactly as the specification words it: an ordered list of
(condition, label) pairs, first match wins, default "Normal".  This
definition follows the spec's words and is compared against `classify`,
which is translated from the source. -/
def regimeRules : List ((ℚ → ℚ → Bool) × String) :=
  [ (fun s m => decide (s < -(3/10)) && decide (m > 2), "Elevated Fear"),
    (fun s m => decide (s > 4/10) && decide (m > 3), "Euphoria"),
    (fun s m => decide (|s| < 1/10), "Disagreement"),
    (fun _ m => decide (m > 5), "Volatility Warning"),
    (fun s _ => decide (s > 5/10), "Hype Cycle") ]

/-- First-match-wins evaluation of an ordered rule list, default "Normal". -/
def firstMatchLabel (rules : List ((ℚ → ℚ → Bool) × String)) (s m : ℚ) : String :=
  match rules with
  | [] => "Normal"
  | (c, l) :: rest => if c s m then l else firstMatchLabel rest s m

/-! ### Lemmas shared by fear-greed results -/

lemma neg_length_le_sum (s : List ℚ) (h : ∀ x ∈ s, -1 ≤ x) :
    -(s.length : ℚ) ≤ s.sum := by
  induction s with
  | nil => simp
  | cons a t ih =>
    have ha := h a (by simp)
    have ht := ih (fun x hx => h x (by simp [hx]))
    simp only [List.sum_cons, List.length_cons]
    push_cast
    linarith

lemma pyInt_eq_floor_of_nonneg (q : ℚ) (h : 0 ≤ q) : pyInt q = ⌊q⌋ := by
  rw [pyInt, Rat.floor_def, Int.tdiv_eq_ediv (by exact_mod_cast Rat.num_nonneg.mpr h)
    (by positivity)]

/-! ### Claim theorems for C3 and C4 -/

/-- C3 counterexample: the claim states `greed = round(((avg+1)/2)*100)` and
in particular `fear_greed([1.0]) = {fear:100, greed:100}`.  The code instead
truncates with `int(...)` and always sets `fear = 100 - greed`: on `[1]` it
returns `{fear:0, greed:100}` (not fear 100), and on `[1/2, 1]` (average
`3/4`, score `87.5`) it returns greed 87 while rounding would give 88. -/
theorem C3_fear_greed_counterexample :
    calculate_fear_greed [1] = { fear := 0, greed := 100 } ∧
    (calculate_fear_greed [1/2, 1]).greed = 87 ∧
    round ((((3 : ℚ)/4 + 1) / 2) * 100) = 88 := by
  refine ⟨by norm_num [calculate_fear_greed, pyInt] <;> decide,
    by norm_num [calculate_fear_greed, pyInt] <;> decide, by norm_num [round_eq]⟩

/-- C3 amended: for sentiments in `[-1,1]`, the fear-greed computation
returns `greed = trunc(((avg+1)/2)*100)` (truncation toward zero, which here
equals the floor since the value is nonnegative) and `fear = 100 - greed`;
the empty sequence yields `{fear:50, greed:50}`; moreover
`fear_greed([1,-1]) = {fear:50, greed:50}` and
`fear_greed([1]) = {fear:0, greed:100}`. -/
theorem C3_fear_greed_amended (s : List ℚ) (h : ∀ x ∈ s, -1 ≤ x ∧ x ≤ 1) :
    calculate_fear_greed s =
      (if s = [] then { fear := 50, greed := 50 }
       else { fear := 100 - ⌊((s.sum / s.length + 1) / 2) * 100⌋,
              greed := ⌊((s.sum / s.length + 1) / 2) * 100⌋ }) ∧
    calculate_fear_greed [] = { fear := 50, greed := 50 } ∧
    calculate_fear_greed [1, -1] = { fear := 50, greed := 50 } ∧
    calculate_fear_greed [1] = { fear := 0, greed := 100 } := by
  refine ⟨?_, by norm_num [calculate_fear_greed] <;> decide,
    by norm_num [calculate_fear_greed, pyInt] <;> decide,
    by norm_num [calculate_fear_greed, pyInt] <;> decide⟩
  · by_cases hs : s = []
    · simp [calculate_fear_greed, hs]
    · have hlen : (0 : ℚ) < s.length := by
        have : s.length ≠ 0 := by simpa [List.length_eq_zero] using hs
        positivity
      have hsum : -(s.length : ℚ) ≤ s.sum :=
        neg_length_le_sum s (fun x hx => (h x hx).1)
      have havg : -1 ≤ s.sum / s.length := by
        rw [le_div_iff hlen]
        linarith
      have hnn : 0 ≤ ((s.sum / s.length + 1) / 2) * 100 := by
        have h1 : 0 ≤ s.sum / s.length + 1 := by linarith
        positivity
      simp only [calculate_fear_greed, hs, if_false]
      rw [pyInt_eq_floor_of_nonneg _ hnn]

/-- Witness for C3 amended at the concrete input `[1/2, 1]`: average `3/4`,
greed `⌊87.5⌋ = 87`, fear `13`. -/
theorem C3_fear_greed_amended_witness :
    calculate_fear_greed [1/2, 1] = { fear := 13, greed := 87 } := by
  have h := (C3_fear_greed_amended [1/2, 1] (by norm_num)).1
  rw [h]
  norm_num
  decide

/-- C4: the regime rule ladder found in the source (as the orphaned body of
the would-be `classify` method) evaluates exactly the spec's ordered rule
list with first match winning: Elevated Fear, Euphoria, Disagreement,
Volatility Warning, Hype Cycle, else Normal.  (The surrounding claim is a
code bug: `RegimeClassifier` has no reachable `classify` method — the
ladder sits after the `return` of `calculate_fear_greed` — yet
`SocialSentimentLayer.run` calls `self.regime_classifier.classify(...)`.) -/
theorem C4_regime_ladder_matches_spec (s m : ℚ) :
    classify s m = firstMatchLabel regimeRules s m := by
  simp only [classify, regimeRules, firstMatchLabel, Bool.and_eq_true,
    decide_eq_true_eq]

/-! ## NewsSentimentLayer.filter_timeframe (newsentiment.py, lines 278-292)

Timestamps are modelled as integer minute counts.  `datetime.now()` becomes
the parameter `now`; `now.replace(hour=0, minute=0, second=0, microsecond=0)`
becomes the start of the day containing `now`, i.e. flooring to a multiple
of 1440 minutes (Euclidean division floors, as the calendar does).
`timedelta(hours=h)` is `60*h` minutes and `timedelta(days=d)` is `1440*d`
minutes.  The default arguments `hours=None, days=None` become `Option ℤ`,
and Python's `if hours:` truthiness (`None` and `0` are both falsy) is
modelled by `truthyOpt`.  The hours branch keeps `timestamp >= cutoff` with
no upper bound; the days branch keeps `cutoff <= timestamp < today_start`.
The final `filtered.sort(key=timestamp)` is modelled by Mathlib's stable
insertion sort on the timestamp key.
`SocialSentimentLayer._filter_timeframe` (lines 1120-1131) applies the same
two window rules without the final sort. -/

/-- A news/social item as seen by the window filter: only its parsed
timestamp (minutes) matters; `title` carries the rest of the payload. -/
structure SItem where
  timestamp : ℤ
  title : String
deriving DecidableEq, Repr

/-- Python truthiness of an optional integer argument (`None` and `0` falsy). -/
def truthyOpt : Option ℤ → Bool
  | none => false
  | some x => x ≠ 0

/-- Start of the day containing `now`, in minutes: `now.replace(hour=0, ...)`. -/
def dayStart (now : ℤ) : ℤ := 1440 * (now / 1440)

/-- `filtered.sort(key=lambda x: x['timestamp'])`: a stable sort by timestamp. -/
def sortByTimestamp (l : List SItem) : List SItem :=
  l.insertionSort (fun a b => a.timestamp ≤ b.timestamp)

/-- Embedding of `NewsSentimentLayer.filter_timeframe`. -/
def filter_timeframe (news : List SItem) (now : ℤ) (hours days : Option ℤ) :
    List SItem :=
  if truthyOpt hours then
    let cutoff := now - 60 * hours.getD 0
    sortByTimestamp (news.filter (fun n => cutoff ≤ n.timestamp))
  else if truthyOpt days then
    let today_start := dayStart now
    let cutoff := today_start - 1440 * days.getD 0
    sortByTimestamp
      (news.filter (fun n => cutoff ≤ n.timestamp ∧ n.timestamp < today_start))
  else news

lemma mem_sortByTimestamp {x : SItem} {l : List SItem} :
    x ∈ sortByTimestamp l ↔ x ∈ l :=
  (List.perm_insertionSort _ l).mem_iff

lemma mem_filter_timeframe_days {pool : List SItem} {now d : ℤ} (hd : d ≠ 0)
    {x : SItem} :
    x ∈ filter_timeframe pool now none (some d) ↔
      x ∈ pool ∧ dayStart now - 1440 * d ≤ x.timestamp ∧ x.timestamp < dayStart now := by
  simp [filter_timeframe, truthyOpt, hd, mem_sortByTimestamp, List.mem_filter,
    and_assoc]

lemma mem_filter_timeframe_hours {pool : List SItem} {now h : ℤ} (hh : h ≠ 0)
    {x : SItem} :
    x ∈ filter_timeframe pool now (some h) none ↔
      x ∈ pool ∧ now - 60 * h ≤ x.timestamp := by
  simp [filter_timeframe, truthyOpt, hh, mem_sortByTimestamp, List.mem_filter]

/-- C2 counterexample: the claim states the 24-hour filtered copy is a
subset of the 7-day filtered copy.  An item timestamped at the current
instant (here `now = 1440`, the start of day 1) is kept by the hours-based
24H filter (`timestamp >= now - 24h`) but rejected by the day-based 7D
filter (`timestamp < today_start`), because the hours window has no upper
bound while the day windows end at the start of the current day. -/
theorem C2_nested_windows_counterexample :
    ¬ (∀ x, x ∈ filter_timeframe [⟨1440, "a"⟩] 1440 (some 24) none →
            x ∈ filter_timeframe [⟨1440, "a"⟩] 1440 none (some 7)) := by
  intro hsub
  have h1 : (⟨1440, "a"⟩ : SItem) ∈ filter_timeframe [⟨1440, "a"⟩] 1440 (some 24) none := by
    decide
  have h2 := hsub _ h1
  revert h2
  decide

/-- C2 amended: for every pool and current time, the 7-day filtered copy is
a subset of the 30-day filtered copy, and every item of the 24-hour
filtered copy whose timestamp precedes the start of the current day is in
the 7-day copy.  The full nesting `24H ⊆ 7D` fails because the hours-based
24H window `[now-24h, ∞)` extends past the day-based upper bound. -/
theorem C2_nested_windows_amended (pool : List SItem) (now : ℤ) (hnow : 0 ≤ now) :
    (∀ x ∈ filter_timeframe pool now none (some 7),
        x ∈ filter_timeframe pool now none (some 30)) ∧
    (∀ x ∈ filter_timeframe pool now (some 24) none,
        x.timestamp < dayStart now → x ∈ filter_timeframe pool now none (some 7)) := by
  have hds : dayStart now ≤ now := by
    have := Int.ediv_mul_le now (b := 1440) (by norm_num)
    simp only [dayStart]
    omega
  constructor
  · intro x hx
    rw [mem_filter_timeframe_days (by norm_num)] at hx
    rw [mem_filter_timeframe_days (by norm_num)]
    exact ⟨hx.1, by omega, hx.2.2⟩
  · intro x hx hlt
    rw [mem_filter_timeframe_hours (by norm_num)] at hx
    rw [mem_filter_timeframe_days (by norm_num)]
    exact ⟨hx.1, by omega, hlt⟩

/-- Witness for C2 amended at a concrete pool and time: with `now = 1440`
(start of day 1) an item at minute `-500` (during day -1, within the last
7 days) is kept by the 7D filter and, per the theorem, also by the 30D
filter. -/
theorem C2_nested_windows_amended_witness :
    (⟨-500, "a"⟩ : SItem) ∈ filter_timeframe [⟨-500, "a"⟩] 1440 none (some 30) := by
  refine (C2_nested_windows_amended [⟨-500, "a"⟩] 1440 (by norm_num)).1 _ ?_
  decide

/-! ## Snapshot pruning and regeneration (Editers/snapshots.py, main, lines 315-367)

Calendar dates are modelled as integer day counts; `timedelta(days=30)` is
the integer 30.  The on-disk artifact set (`snapshot_YYYY-MM-DD.json`
files, keyed by their filename-embedded date) is a function
`ℤ → Option Snapshot`.  `date_data` (the mapping built by
`extract_all_dates_and_data`) is an association list from day to per-date
record; its key list gives `all_dates`/`oldest`/`newest`.  The generation
timestamp inside each written snapshot is fixed by "today" (same today ⇒
same content).  `main` returns early — deleting nothing — when `date_data`
is empty. -/

/-- A value inside a per-date record: a sub-dictionary, a list, or an atom. -/
inductive SVal where
  | sdict : List (String × String) → SVal
  | slist : List String → SVal
  | satom : String → SVal
deriving DecidableEq, Repr

/-- A per-date record: category name to category payload. -/
abbrev DayRec := List (String × SVal)

/-- Embedding of `clean_snapshot_data`: drop empty dict- and list-valued
sections, keep all other values as-is, preserving order. -/
def clean_snapshot_data (r : DayRec) : DayRec :=
  r.filter (fun kv =>
    match kv.2 with
    | SVal.sdict d => !d.isEmpty
    | SVal.slist l => !l.isEmpty
    | SVal.satom _ => true)

/-- A persisted snapshot artifact `{date, snapshot_generated_at, data}`. -/
structure Snapshot where
  date : ℤ
  generated_at : ℤ
  data : DayRec
deriving DecidableEq, Repr

/-- First-match association-list lookup (a Python dict access). -/
def dlookup {α : Type} (k : String) (d : List (String × α)) : Option α :=
  (d.find? (fun p => p.1 = k)).map (fun p => p.2)

/-- Day-keyed association-list lookup for `date_data`. -/
def dayLookup (dd : List (ℤ × DayRec)) (d : ℤ) : Option DayRec :=
  (dd.find? (fun p => p.1 = d)).map (fun p => p.2)

/-- Embedding of the pruning/regeneration pass of `main` (lines 315-367):
empty `date_data` returns early; otherwise delete every artifact whose
embedded date is `< today - 30`, then, walking the days from
`max(cutoff, oldest)` to `newest`, rewrite the snapshot of every day that
has a record with nonempty cleaned data. -/
def snapshots_main (today : ℤ) (date_data : List (ℤ × DayRec))
    (store : ℤ → Option Snapshot) : ℤ → Option Snapshot :=
  match hkeys : date_data.map Prod.fst with
  | [] => store
  | k :: ks =>
    let oldest := ks.foldl min k
    let newest := ks.foldl max k
    let cutoff := today - 30
    let deleted : ℤ → Option Snapshot := fun d =>
      match store d with
      | some s => if d < cutoff then none else some s
      | none => none
    fun d =>
      if max cutoff oldest ≤ d ∧ d ≤ newest then
        match dayLookup date_data d with
        | some r =>
          let cleaned := clean_snapshot_data r
          if cleaned.isEmpty then deleted d
          else some { date := d, generated_at := today, data := cleaned }
        | none => deleted d
      else deleted d

/-- C7 counterexample: the claim asserts that after any run no artifact
dated strictly before `today - 30` remains.  A run whose extracted
`date_data` is empty returns early ("ERROR: No data found") before the
deletion step, leaving a stale artifact dated `-100` in place with
`today = 0`. -/
theorem C7_prune_counterexample :
    snapshots_main 0 []
        (fun d => if d = -100 then some ⟨-100, -70, [("news", SVal.slist ["t"])]⟩ else none)
        (-100) = some ⟨-100, -70, [("news", SVal.slist ["t"])]⟩ ∧
    (-100 : ℤ) < 0 - 30 := by
  constructor
  · rfl
  · norm_num

/-- C7 amended: the pass is idempotent — run twice with the same `today`
and the same source data it produces the identical retained artifact set —
and, provided the run extracts at least one dated record (so that it does
not return early), no artifact dated strictly before `today - 30` remains
afterwards. -/
theorem C7_prune_amended (today : ℤ) (date_data : List (ℤ × DayRec))
    (store : ℤ → Option Snapshot) :
    snapshots_main today date_data (snapshots_main today date_data store) =
      snapshots_main today date_data store ∧
    (date_data ≠ [] →
      ∀ d, d < today - 30 → snapshots_main today date_data store d = none) := by
  constructor
  · funext d
    simp only [snapshots_main]
    cases hkeys : date_data.map Prod.fst with
    | nil => rfl
    | cons k ks =>
      by_cases hwin : max (today - 30) (ks.foldl min k) ≤ d ∧ d ≤ ks.foldl max k
      · simp only [hwin, if_true]
        cases hstore : dayLookup date_data d with
        | some r =>
          by_cases hcl : (clean_snapshot_data r).isEmpty
          · simp only [hstore, hcl, if_true]
            by_cases hd : d < today - 30
            · exfalso; omega
            · simp only [hwin, if_true, hstore, hcl, if_true, hd, if_false]
              cases store d <;> simp [hd]
          · simp [hstore, hcl]
        | none =>
          have hd : ¬ d < today - 30 := by omega
          simp only [hstore, hwin, if_true]
          cases store d <;> simp [hd]
      · simp only [hwin, if_false]
        by_cases hd : d < today - 30
        · cases store d <;> simp [hd]
        · cases store d <;> simp [hd]
  · intro hne d hd
    simp only [snapshots_main]
    cases hkeys : date_data.map Prod.fst with
    | nil =>
      exfalso
      exact hne (by simpa using congrArg List.length hkeys)
    | cons k ks =>
      have hwin : ¬ (max (today - 30) (ks.foldl min k) ≤ d ∧ d ≤ ks.foldl max k) := by
        intro ⟨h1, _⟩; omega
      simp only [hwin, if_false]
      cases store d <;> simp [hd]

/-- Witness for C7 amended at concrete inputs: with `today = 0`, one
record on day 5, and a store holding only a stale artifact on day `-40`,
running the pass removes the stale artifact, and running it twice equals
running it once. -/
theorem C7_prune_amended_witness :
    (snapshots_main 0 [(5, [("news", SVal.slist ["t"])])]
        (snapshots_main 0 [(5, [("news", SVal.slist ["t"])])]
          (fun d => if d = -40 then some ⟨-40, -35, []⟩ else none)) =
      snapshots_main 0 [(5, [("news", SVal.slist ["t"])])]
        (fun d => if d = -40 then some ⟨-40, -35, []⟩ else none)) ∧
    snapshots_main 0 [(5, [("news", SVal.slist ["t"])])]
        (fun d => if d = -40 then some ⟨-40, -35, []⟩ else none) (-40) = none := by
  have h := C7_prune_amended 0 [(5, [("news", SVal.slist ["t"])])]
    (fun d => if d = -40 then some ⟨-40, -35, []⟩ else none)
  exact ⟨h.1, h.2 (by simp) (-40) (by norm_num)⟩

/-! ## Renderers (Editers/jsons_to_text.py)

JSON values reaching these formatters are strings, numbers or null,
modelled by `PyVal` (floats as rationals).  A snapshot category payload is
an association list `String × PyVal`, read through `dget` (Python
`dict.get`).  Python string formatting of floats operates on binary
doubles; the rational model renders with exact half-even rounding, which
agrees on the inputs exercised here. -/

/-- A JSON scalar as handled by the formatters. -/
inductive PyVal where
  | vstr : List Char → PyVal
  | vnum : ℚ → PyVal
  | vnull : PyVal
deriving DecidableEq, Repr

/-- Python truthiness of a `PyVal` (empty string, `0.0` and `None` falsy). -/
def pyTruthy : PyVal → Bool
  | .vstr s => !s.isEmpty
  | .vnum q => q ≠ 0
  | .vnull => false

/-- `dict.get(k)` on an association list. -/
def dget (data : List (String × PyVal)) (k : String) : Option PyVal :=
  dlookup k data

/-- `dict.get(k, default)` on an association list. -/
def dgetD (data : List (String × PyVal)) (k : String) (dflt : PyVal) : PyVal :=
  (dget data k).getD dflt

/-- Python `str.strip()` (whitespace at both ends). -/
def pyStrip (s : List Char) : List Char :=
  ((s.dropWhile Char.isWhitespace).reverse.dropWhile Char.isWhitespace).reverse

/-- Numeric value of a digit string. -/
def digitsVal (l : List Char) : ℕ :=
  l.foldl (fun a c => 10 * a + (c.toNat - 48)) 0

/-- Exponent suffix of a Python float literal: optional sign, then one or
more digits consuming the rest of the string. -/
def pyFloatExp (sgn mant : ℚ) (t : List Char) : Option ℚ :=
  let (epos, t1) : Bool × List Char :=
    match t with
    | '+' :: r => (true, r)
    | '-' :: r => (false, r)
    | r => (true, r)
  let (ed, t2) := t1.span Char.isDigit
  if ed.isEmpty || !t2.isEmpty then none
  else if epos then some (sgn * mant * (10 : ℚ) ^ digitsVal ed)
  else some (sgn * mant / (10 : ℚ) ^ digitsVal ed)

/-- Python `float(s)` on a stripped string: optional sign, integer and/or
fractional digits, optional exponent.  (`inf`/`nan` and digit-group
underscores, which no claim exercises, are outside the model.) -/
def pyFloat (s : List Char) : Option ℚ :=
  let (sgn, s1) : ℚ × List Char :=
    match s with
    | '+' :: t => (1, t)
    | '-' :: t => (-1, t)
    | t => (1, t)
  let (ip, s2) := s1.span Char.isDigit
  let (fp, s3) :=
    match s2 with
    | '.' :: t => t.span Char.isDigit
    | t => (([] : List Char), t)
  if ip.isEmpty && fp.isEmpty && s2 ≠ '.' :: s3 then none
  else if ip.isEmpty && fp.isEmpty then none
  else
    let mant : ℚ := (digitsVal ip : ℚ) + (digitsVal fp : ℚ) / (10 : ℚ) ^ fp.length
    match s3 with
    | [] => some (sgn * mant)
    | 'e' :: t => pyFloatExp sgn mant t
    | 'E' :: t => pyFloatExp sgn mant t
    | _ => none

/-- Embedding of `DataFormatter.parse_numeric`: `None` stays absent,
numbers pass through, strings are cleaned of `% , $ B M K`, stripped and
parsed as floats; failures yield `None`. -/
def parse_numeric : PyVal → Option ℚ
  | .vnull => none
  | .vnum q => some q
  | .vstr s =>
    pyFloat (pyStrip (s.filter (fun c => !(List.contains ['%', ',', '$', 'B', 'M', 'K'] c))))

/-- `parse_numeric` applied to a `dict.get` result (absent key acts as `None`). -/
def parse_numericO : Option PyVal → Option ℚ
  | none => none
  | some v => parse_numeric v

/-- Truthiness of a parsed number (`None` and `0.0` falsy), as used by
`all([open_p, high, low, close])`. -/
def truthyOQ : Option ℚ → Bool
  | none => false
  | some q => q ≠ 0

/-- Embedding of `DataFormatter.calculate_change`: absent either price or a
zero open yields `(None, None)`; otherwise the absolute change and the
percentage change. -/
def calculate_change (open_price close_price : Option ℚ) : Option ℚ × Option ℚ :=
  match open_price, close_price with
  | some o, some c => if o = 0 then (none, none) else (some (c - o), some ((c - o) / o * 100))
  | _, _ => (none, none)

/-- Round to nearest integer, ties to even (float formatting semantics). -/
def roundHalfEvenZ (x : ℚ) : ℤ :=
  let f := x.floor
  let r := x - f
  if r < 1/2 then f else if 1/2 < r then f + 1 else if 2 ∣ f then f else f + 1

/-- Decimal digits of a natural number. -/
def natDigits (n : ℕ) : List Char := Nat.toDigits 10 n

/-- Insert `,` every three digits counting from the right (input reversed). -/
def group3Aux : List Char → List Char
  | a :: b :: c :: d :: rest => a :: b :: c :: ',' :: group3Aux (d :: rest)
  | l => l

/-- Thousands grouping of a digit string. -/
def group3 (ds : List Char) : List Char := (group3Aux ds.reverse).reverse

/-- Left-pad a digit string with zeros to a given width. -/
def padZeros (s : List Char) (w : ℕ) : List Char :=
  List.replicate (w - s.length) '0' ++ s

/-- Fixed-point rendering `f"{q:.dec f}"`, optionally with thousands
grouping (`f"{q:,.dec f}"`). -/
def commaFixed (q : ℚ) (dec : ℕ) (grouped : Bool) : List Char :=
  let n := (roundHalfEvenZ (|q| * (10 : ℚ) ^ dec)).toNat
  let ipart := n / 10 ^ dec
  let fpart := n % 10 ^ dec
  let istr := if grouped then group3 (natDigits ipart) else natDigits ipart
  let frac := if dec = 0 then [] else '.' :: padZeros (natDigits fpart) dec
  (if q < 0 then ['-'] else []) ++ istr ++ frac

/-- Embedding of `DataFormatter.format_number`: `None` renders "N/A",
otherwise prefix plus comma-grouped fixed-point. -/
def format_number (num : Option ℚ) (pfx : List Char) (decimals : ℕ) : List Char :=
  match num with
  | none => "N/A".toList
  | some q => pfx ++ commaFixed q decimals true

/-- Python `str(...)` of a `PyVal`, for f-string interpolation.  For
rationals with terminating decimal expansion this matches `str(float)`;
Python's shortest-roundtrip repr of other binary floats is approximated by
a 17-place expansion. -/
def pyStrPV : PyVal → List Char
  | .vstr s => s
  | .vnull => "None".toList
  | .vnum q =>
    let sgn : List Char := if q < 0 then ['-'] else []
    let n := q.num.natAbs
    let d := q.den
    if n % d = 0 then sgn ++ natDigits (n / d) ++ ".0".toList
    else
      let expansion := (List.range 17).foldl
        (fun (acc : List Char × ℕ) _ =>
          let r10 := acc.2 * 10
          (acc.1 ++ [Char.ofNat (48 + r10 / d)], r10 % d)) ([], n % d)
      let trimmed := (expansion.1.reverse.dropWhile (· = '0')).reverse
      sgn ++ natDigits (n / d) ++ '.' :: (if trimmed.isEmpty then ['0'] else trimmed)

/-- Embedding of `XAUUSDFormatter.format`: empty payload or any of the four
OHLC fields absent, unparseable or falsy (`0.0`) yields `None`; otherwise
the gold-price sentence. -/
def XAUUSDFormatter.format (data : List (String × PyVal)) : Option (List Char) :=
  if data.isEmpty then none
  else
    let open_p := parse_numericO (dget data "open")
    let high := parse_numericO (dget data "high")
    let low := parse_numericO (dget data "low")
    let close := parse_numericO (dget data "close")
    if !(truthyOQ open_p && truthyOQ high && truthyOQ low && truthyOQ close) then none
    else
      match calculate_change open_p close with
      | (some change, some pct_change) =>
        match open_p, high, low, close with
        | some o, some h, some l, some c =>
          let range_val := h - l
          let dcp : List Char × List Char × List Char :=
            if |change| < 1/100 then
              ("no significant change".toList, "flat".toList, "0.00%".toList)
            else if 0 < change then
              ("gain".toList, '+' :: format_number (some change) [] 2,
               '+' :: (commaFixed pct_change 2 false ++ ['%']))
            else
              ("loss".toList, format_number (some change) [] 2,
               commaFixed pct_change 2 false ++ ['%'])
          some ("Gold (XAU/USD) opened at ".toList ++ format_number (some o) "$".toList 2
            ++ ", reached a high of ".toList ++ format_number (some h) "$".toList 2
            ++ ", dipped to a low of ".toList ++ format_number (some l) "$".toList 2
            ++ ", and closed at ".toList ++ format_number (some c) "$".toList 2
            ++ ". This represents a daily ".toList ++ dcp.1 ++ " of ".toList ++ dcp.2.1
            ++ " (".toList ++ dcp.2.2 ++ ") with an intraday range of ".toList
            ++ format_number (some range_val) [] 2 ++ ".".toList)
        | _, _, _, _ => none
      | _ => none

/-- C9: the gold-price renderer returns no text whenever any of the four
OHLC fields is missing, unparseable, or parses to exactly zero — in
particular a present-but-zero field (the guard
`not all([open_p, high, low, close])` treats `0.0` as falsy). -/
theorem C9_xauusd_none_on_falsy_field (data : List (String × PyVal))
    (h : ∃ k ∈ (["open", "high", "low", "close"] : List String),
           parse_numericO (dget data k) = none ∨ parse_numericO (dget data k) = some 0) :
    XAUUSDFormatter.format data = none := by
  obtain ⟨k, hk, hcase⟩ := h
  by_cases hdata : data.isEmpty
  · simp [XAUUSDFormatter.format, hdata]
  · simp only [List.mem_cons, List.mem_singleton, List.not_mem_nil, or_false] at hk
    have hfalse : truthyOQ (parse_numericO (dget data k)) = false := by
      rcases hcase with hnone | hzero
      · rw [hnone]; rfl
      · rw [hzero]; simp [truthyOQ]
    rcases hk with rfl | rfl | rfl | rfl <;>
      simp [XAUUSDFormatter.format, hdata, hfalse]

/-- Witness for C9 at a concrete bar: all four fields present but `open`
is the legitimate value `0.0`, and the renderer emits nothing. -/
theorem C9_xauusd_none_on_falsy_field_witness :
    XAUUSDFormatter.format
      [("open", PyVal.vnum 0), ("high", PyVal.vnum 2400),
       ("low", PyVal.vnum 2300), ("close", PyVal.vnum 2350)] = none := by
  apply C9_xauusd_none_on_falsy_field
  exact ⟨"open", by simp, Or.inr (by decide)⟩

/-! ## EconomicEventsFormatter.format (Editers/jsons_to_text.py, lines 267-329)

One event is an association list with keys time/currency/event/actual/
forecast/previous; the per-event sentence is built from a base part, an
actual part, a forecast-comparison clause and a previous-comparison
clause, mirroring the `text += ...` structure of the source. -/

/-- `f"At {time}, {currency} {event_name} was released."` -/
def eventBase (ev : List (String × PyVal)) : List Char :=
  "At ".toList ++ pyStrPV (dgetD ev "time" (PyVal.vstr "Unknown time".toList))
    ++ ", ".toList ++ pyStrPV (dgetD ev "currency" (PyVal.vstr []))
    ++ " ".toList ++ pyStrPV (dgetD ev "event" (PyVal.vstr "Unknown event".toList))
    ++ " was released.".toList

/-- The forecast-comparison clause: raw-unequal truthy forecast is compared
numerically when both sides parse (greater → beating, smaller → missing,
equal → nothing); non-numeric pairs fall back to `" (forecast: ...)"`;
raw-equal truthy forecast yields the matching clause. -/
def forecastClause (actual forecast : PyVal) : List Char :=
  if pyTruthy forecast ∧ actual ≠ forecast then
    match parse_numeric actual, parse_numeric forecast with
    | some a, some f =>
      if a > f then ", beating forecast of ".toList ++ pyStrPV forecast
      else if a < f then ", missing forecast of ".toList ++ pyStrPV forecast
      else []
    | _, _ => " (forecast: ".toList ++ pyStrPV forecast ++ ")".toList
  else if pyTruthy forecast then ", matching forecast of ".toList ++ pyStrPV forecast
  else []

/-- The previous-comparison clause: rising/falling when the numeric change
exceeds 0.01 in absolute value, otherwise unchanged; non-numeric pairs fall
back to `" (previous: ...)."`; with no truthy previous a bare period is
appended only when the forecast was falsy. -/
def previousClause (actual forecast previous : PyVal) : List Char :=
  if pyTruthy previous ∧ actual ≠ previous then
    match parse_numeric actual, parse_numeric previous with
    | some a, some p =>
      if |a - p| > 1/100 then
        " and ".toList ++ (if a - p > 0 then "rising".toList else "falling".toList)
          ++ " from previous ".toList ++ pyStrPV previous ++ ".".toList
      else ", unchanged from previous ".toList ++ pyStrPV previous ++ ".".toList
    | _, _ => " (previous: ".toList ++ pyStrPV previous ++ ").".toList
  else if !pyTruthy forecast then ".".toList
  else []

/-- The full per-event sentence of `EconomicEventsFormatter.format`. -/
def eventText (ev : List (String × PyVal)) : List Char :=
  let actual := dgetD ev "actual" (PyVal.vstr [])
  let forecast := dgetD ev "forecast" (PyVal.vstr [])
  let previous := dgetD ev "previous" (PyVal.vstr [])
  if pyTruthy actual then
    eventBase ev ++ " Actual: ".toList ++ pyStrPV actual
      ++ forecastClause actual forecast
      ++ previousClause actual forecast previous
  else eventBase ev

/-- Embedding of `EconomicEventsFormatter.format`: absent with no events,
otherwise the newline-joined event sentences. -/
def EconomicEventsFormatter.format (events : List (List (String × PyVal))) :
    Option (List Char) :=
  if events.isEmpty then none
  else
    let lines := events.map eventText
    if lines.isEmpty then none else some (List.intercalate ['\n'] lines)

/-- C10: for an event whose actual and forecast are both truthy, unequal as
raw values, but parse to the same number, the rendered sentence carries no
forecast-comparison clause at all (neither beating/missing/matching nor the
non-numeric fallback): the clause is empty and the sentence is exactly
base + actual part + previous clause. -/
theorem C10_equal_numeric_forecast_no_clause (ev : List (String × PyVal)) (x : ℚ)
    (ha : pyTruthy (dgetD ev "actual" (PyVal.vstr [])) = true)
    (hf : pyTruthy (dgetD ev "forecast" (PyVal.vstr [])) = true)
    (hne : dgetD ev "actual" (PyVal.vstr []) ≠ dgetD ev "forecast" (PyVal.vstr []))
    (hxa : parse_numeric (dgetD ev "actual" (PyVal.vstr [])) = some x)
    (hxf : parse_numeric (dgetD ev "forecast" (PyVal.vstr [])) = some x) :
    forecastClause (dgetD ev "actual" (PyVal.vstr []))
        (dgetD ev "forecast" (PyVal.vstr [])) = [] ∧
    eventText ev =
      eventBase ev ++ " Actual: ".toList ++ pyStrPV (dgetD ev "actual" (PyVal.vstr []))
        ++ previousClause (dgetD ev "actual" (PyVal.vstr []))
            (dgetD ev "forecast" (PyVal.vstr []))
            (dgetD ev "previous" (PyVal.vstr [])) := by
  have hclause : forecastClause (dgetD ev "actual" (PyVal.vstr []))
      (dgetD ev "forecast" (PyVal.vstr [])) = [] := by
    rw [forecastClause, if_pos ⟨hf, hne⟩, hxa, hxf]
    simp
  refine ⟨hclause, ?_⟩
  rw [eventText]
  simp only [ha, if_true, hclause, List.append_nil]

lemma parse_numeric_str250 : parse_numeric (PyVal.vstr "2.50".toList) = some (5/2) := by
  have h : parse_numeric (PyVal.vstr "2.50".toList)
      = some ((1 : ℚ) * (((2 : ℕ) : ℚ) + ((50 : ℕ) : ℚ) / (10 : ℚ) ^ (2 : ℕ))) := rfl
  rw [h]
  push_cast
  norm_num

lemma parse_numeric_str25 : parse_numeric (PyVal.vstr "2.5".toList) = some (5/2) := by
  have h : parse_numeric (PyVal.vstr "2.5".toList)
      = some ((1 : ℚ) * (((2 : ℕ) : ℚ) + ((5 : ℕ) : ℚ) / (10 : ℚ) ^ (1 : ℕ))) := rfl
  rw [h]
  push_cast
  norm_num

/-- Witness for C10 at a concrete event: actual "2.50" and forecast "2.5"
differ as strings but both parse to 5/2, so the forecast clause is empty. -/
theorem C10_equal_numeric_forecast_no_clause_witness :
    forecastClause
      (dgetD [("actual", PyVal.vstr "2.50".toList), ("forecast", PyVal.vstr "2.5".toList)]
        "actual" (PyVal.vstr []))
      (dgetD [("actual", PyVal.vstr "2.50".toList), ("forecast", PyVal.vstr "2.5".toList)]
        "forecast" (PyVal.vstr [])) = [] :=
  (C10_equal_numeric_forecast_no_clause
    [("actual", PyVal.vstr "2.50".toList), ("forecast", PyVal.vstr "2.5".toList)]
    (5/2) (by decide) (by decide) (by decide)
    (by rw [show dgetD [("actual", PyVal.vstr "2.50".toList),
              ("forecast", PyVal.vstr "2.5".toList)] "actual" (PyVal.vstr [])
            = PyVal.vstr "2.50".toList from rfl, parse_numeric_str250])
    (by rw [show dgetD [("actual", PyVal.vstr "2.50".toList),
              ("forecast", PyVal.vstr "2.5".toList)] "forecast" (PyVal.vstr [])
            = PyVal.vstr "2.5".toList from rfl, parse_numeric_str25])).1

/-! ## parse_date (Editers/snapshots.py, lines 10-36)

`datetime.strptime` is embedded character-for-character following CPython's
`_strptime` regexes: `%Y` is exactly four digits; `%m` is `1[0-2]|0[1-9]|[1-9]`;
`%d` is `3[01]|[12]\d|0[1-9]|[1-9]`; `%H` is `2[0-3]|[0-1]\d|\d`; `%M`/`%S`
are `[0-5]\d|\d`; a literal space in the format matches a nonempty
whitespace run; the regex must consume the whole string ("unconverted data
remains" otherwise); finally `datetime(...)` enforces calendar validity
(year 1-9999, day within the month, Gregorian leap years) and `.date()`
discards the time.  Each failure is an exception the Python loop catches,
so each format attempt returns an `Option`.  Before every attempt the loop
reduces the (already stripped) string: cut at the first `'T'` if one is
present, else take the first whitespace-delimited token if the string
contains both a space and a colon. -/

/-- A date-only value. -/
structure CalDate where
  year : ℕ
  month : ℕ
  day : ℕ
deriving DecidableEq, Repr

/-- Gregorian leap year. -/
def isLeap (y : ℕ) : Bool := y % 4 = 0 && (y % 100 ≠ 0 || y % 400 = 0)

/-- Days in a month. -/
def daysInMonth (y m : ℕ) : ℕ :=
  if m = 2 then (if isLeap y then 29 else 28)
  else if m = 4 ∨ m = 6 ∨ m = 9 ∨ m = 11 then 30
  else 31

/-- `datetime`'s validity check on a parsed year/month/day. -/
def validYMD (y m d : ℕ) : Bool :=
  decide (1 ≤ y) && decide (y ≤ 9999) && decide (1 ≤ m) && decide (m ≤ 12)
    && decide (1 ≤ d) && decide (d ≤ daysInMonth y m)

/-- Numeric value of a digit character. -/
def toD (c : Char) : ℕ := c.toNat - 48

/-- `%Y`: exactly four digits. -/
def parse4Digits : List Char → Option (ℕ × List Char)
  | a :: b :: c :: d :: rest =>
    if a.isDigit && b.isDigit && c.isDigit && d.isDigit then
      some ((((toD a * 10 + toD b) * 10 + toD c) * 10 + toD d), rest)
    else none
  | _ => none

/-- `%m`: `1[0-2]|0[1-9]|[1-9]`, alternatives in regex order. -/
def parseMonth2 : List Char → Option (ℕ × List Char)
  | c1 :: c2 :: rest =>
    if c1 = '1' ∧ '0' ≤ c2 ∧ c2 ≤ '2' then some (10 + toD c2, rest)
    else if c1 = '0' ∧ '1' ≤ c2 ∧ c2 ≤ '9' then some (toD c2, rest)
    else if '1' ≤ c1 ∧ c1 ≤ '9' then some (toD c1, c2 :: rest)
    else none
  | [c1] => if '1' ≤ c1 ∧ c1 ≤ '9' then some (toD c1, []) else none
  | [] => none

/-- `%d`: `3[01]|[12]\d|0[1-9]|[1-9]`, alternatives in regex order. -/
def parseDay2 : List Char → Option (ℕ × List Char)
  | c1 :: c2 :: rest =>
    if c1 = '3' ∧ ('0' ≤ c2 ∧ c2 ≤ '1') then some (30 + toD c2, rest)
    else if (c1 = '1' ∨ c1 = '2') ∧ c2.isDigit then some (10 * toD c1 + toD c2, rest)
    else if c1 = '0' ∧ '1' ≤ c2 ∧ c2 ≤ '9' then some (toD c2, rest)
    else if '1' ≤ c1 ∧ c1 ≤ '9' then some (toD c1, c2 :: rest)
    else none
  | [c1] => if '1' ≤ c1 ∧ c1 ≤ '9' then some (toD c1, []) else none
  | [] => none

/-- `%H`: `2[0-3]|[0-1]\d|\d`, alternatives in regex order. -/
def parseHour : List Char → Option (ℕ × List Char)
  | c1 :: c2 :: rest =>
    if c1 = '2' ∧ '0' ≤ c2 ∧ c2 ≤ '3' then some (20 + toD c2, rest)
    else if (c1 = '0' ∨ c1 = '1') ∧ c2.isDigit then some (10 * toD c1 + toD c2, rest)
    else if c1.isDigit then some (toD c1, c2 :: rest)
    else none
  | [c1] => if c1.isDigit then some (toD c1, []) else none
  | [] => none

/-- `%M` and `%S`: `[0-5]\d|\d`. -/
def parseMinSec : List Char → Option (ℕ × List Char)
  | c1 :: c2 :: rest =>
    if ('0' ≤ c1 ∧ c1 ≤ '5') ∧ c2.isDigit then some (10 * toD c1 + toD c2, rest)
    else if c1.isDigit then some (toD c1, c2 :: rest)
    else none
  | [c1] => if c1.isDigit then some (toD c1, []) else none
  | [] => none

/-- A literal character in the format. -/
def expectCh (ch : Char) : List Char → Option (List Char)
  | c :: rest => if c = ch then some rest else none
  | [] => none

/-- A literal space in the format: a nonempty whitespace run. -/
def expectWs (s : List Char) : Option (List Char) :=
  let (w, rest) := s.span Char.isWhitespace
  if w.isEmpty then none else some rest

/-- `datetime.strptime(s, "%Y-%m-%d").date()`. -/
def strptimeYMD (s : List Char) : Option CalDate := do
  let (y, s) ← parse4Digits s
  let s ← expectCh '-' s
  let (m, s) ← parseMonth2 s
  let s ← expectCh '-' s
  let (d, s) ← parseDay2 s
  if s.isEmpty && validYMD y m d then some ⟨y, m, d⟩ else none

/-- `datetime.strptime(s, "%Y-%m-%dT%H:%M:%S").date()`. -/
def strptimeYMDTHMS (s : List Char) : Option CalDate := do
  let (y, s) ← parse4Digits s
  let s ← expectCh '-' s
  let (m, s) ← parseMonth2 s
  let s ← expectCh '-' s
  let (d, s) ← parseDay2 s
  let s ← expectCh 'T' s
  let (_, s) ← parseHour s
  let s ← expectCh ':' s
  let (_, s) ← parseMinSec s
  let s ← expectCh ':' s
  let (_, s) ← parseMinSec s
  if s.isEmpty && validYMD y m d then some ⟨y, m, d⟩ else none

/-- `datetime.strptime(s, "%Y-%m-%d %H:%M:%S").date()`. -/
def strptimeYMDsHMS (s : List Char) : Option CalDate := do
  let (y, s) ← parse4Digits s
  let s ← expectCh '-' s
  let (m, s) ← parseMonth2 s
  let s ← expectCh '-' s
  let (d, s) ← parseDay2 s
  let s ← expectWs s
  let (_, s) ← parseHour s
  let s ← expectCh ':' s
  let (_, s) ← parseMinSec s
  let s ← expectCh ':' s
  let (_, s) ← parseMinSec s
  if s.isEmpty && validYMD y m d then some ⟨y, m, d⟩ else none

/-- `datetime.strptime(s, "%d/%m/%Y").date()`. -/
def strptimeDMY (s : List Char) : Option CalDate := do
  let (d, s) ← parseDay2 s
  let s ← expectCh '/' s
  let (m, s) ← parseMonth2 s
  let s ← expectCh '/' s
  let (y, s) ← parse4Digits s
  if s.isEmpty && validYMD y m d then some ⟨y, m, d⟩ else none

/-- The four formats, in the order the source lists them. -/
inductive DateFmt where
  | ymd | ymdT | ymdSpace | dmy
deriving DecidableEq, Repr

def runFmt : DateFmt → List Char → Option CalDate
  | .ymd => strptimeYMD
  | .ymdT => strptimeYMDTHMS
  | .ymdSpace => strptimeYMDsHMS
  | .dmy => strptimeDMY

/-- The per-iteration reduction of `date_str`: cut at the first `'T'` when
one occurs; otherwise keep the first whitespace-delimited token when the
string holds both a space and a colon. -/
def reduceDateStr (s : List Char) : List Char :=
  if 'T' ∈ s then s.takeWhile (fun c => c != 'T')
  else if ' ' ∈ s ∧ ':' ∈ s then
    (s.dropWhile Char.isWhitespace).takeWhile (fun c => !c.isWhitespace)
  else s

/-- The format loop of `parse_date`: reduce, try, continue on failure
(the reduced string carries over, as `date_str` is reassigned). -/
def parse_date_go : List Char → List DateFmt → Option CalDate
  | _, [] => none
  | s, f :: rest =>
    let s' := reduceDateStr s
    match runFmt f s' with
    | some dte => some dte
    | none => parse_date_go s' rest

/-- Embedding of `parse_date`: empty (falsy) input is rejected, the string
is stripped, then the four formats are tried in order; every failure is
swallowed and yields `none`. -/
def parse_date (s : List Char) : Option CalDate :=
  if s.isEmpty then none
  else parse_date_go (pyStrip s) [.ymd, .ymdT, .ymdSpace, .dmy]

/-! ### Rendering of well-formed date strings, and the C6 round-trip lemmas

`dchar`/`render2`/`render4` render zero-padded decimal fields; the lemmas
below re-parse them through the embedded strptime machinery. -/

def dchar (n : ℕ) : Char := Char.ofNat (48 + n)

def render2 (n : ℕ) : List Char := [dchar (n / 10), dchar (n % 10)]

lemma dchar_isDigit {a : ℕ} (ha : a ≤ 9) : (dchar a).isDigit = true := by
  interval_cases a <;> decide

lemma toD_dchar {a : ℕ} (ha : a ≤ 9) : toD (dchar a) = a := by
  interval_cases a <;> decide

lemma dchar_eq_zero {a : ℕ} (ha : a ≤ 9) : (dchar a = '0') ↔ a = 0 := by
  interval_cases a <;> decide

lemma dchar_eq_one {a : ℕ} (ha : a ≤ 9) : (dchar a = '1') ↔ a = 1 := by
  interval_cases a <;> decide

lemma dchar_eq_two {a : ℕ} (ha : a ≤ 9) : (dchar a = '2') ↔ a = 2 := by
  interval_cases a <;> decide

lemma dchar_eq_three {a : ℕ} (ha : a ≤ 9) : (dchar a = '3') ↔ a = 3 := by
  interval_cases a <;> decide

lemma zero_le_dchar {a : ℕ} (ha : a ≤ 9) : ('0' ≤ dchar a) ↔ True := by
  interval_cases a <;> decide

lemma one_le_dchar {a : ℕ} (ha : a ≤ 9) : ('1' ≤ dchar a) ↔ 1 ≤ a := by
  interval_cases a <;> decide

lemma dchar_le_one {a : ℕ} (ha : a ≤ 9) : (dchar a ≤ '1') ↔ a ≤ 1 := by
  interval_cases a <;> decide

lemma dchar_le_two {a : ℕ} (ha : a ≤ 9) : (dchar a ≤ '2') ↔ a ≤ 2 := by
  interval_cases a <;> decide

lemma dchar_le_three {a : ℕ} (ha : a ≤ 9) : (dchar a ≤ '3') ↔ a ≤ 3 := by
  interval_cases a <;> decide

lemma dchar_le_five {a : ℕ} (ha : a ≤ 9) : (dchar a ≤ '5') ↔ a ≤ 5 := by
  interval_cases a <;> decide

lemma dchar_le_nine {a : ℕ} (ha : a ≤ 9) : (dchar a ≤ '9') ↔ True := by
  interval_cases a <;> decide

lemma parseMonth2_render2 {m : ℕ} (h1 : 1 ≤ m) (h2 : m ≤ 12) (rest : List Char) :
    parseMonth2 (render2 m ++ rest) = some (m, rest) := by
  have hq : m / 10 ≤ 9 := by omega
  have hr : m % 10 ≤ 9 := by omega
  simp only [render2, List.cons_append, List.nil_append, parseMonth2,
    dchar_eq_one hq, dchar_eq_zero hq, zero_le_dchar hr, dchar_le_two hr,
    one_le_dchar hr, dchar_le_nine hr, one_le_dchar hq, dchar_le_nine hq,
    toD_dchar hq, toD_dchar hr, true_and, and_true]
  split_ifs <;>
    first
      | (simp only [Option.some.injEq, Prod.mk.injEq, and_true]; omega)
      | (exfalso; omega)


lemma parseDay2_render2 {d : ℕ} (h1 : 1 ≤ d) (h2 : d ≤ 31) (rest : List Char) :
    parseDay2 (render2 d ++ rest) = some (d, rest) := by
  have hq : d / 10 ≤ 9 := by omega
  have hr : d % 10 ≤ 9 := by omega
  simp only [render2, List.cons_append, List.nil_append, parseDay2,
    dchar_eq_three hq, dchar_eq_one hq, dchar_eq_two hq, dchar_eq_zero hq,
    dchar_isDigit hr, zero_le_dchar hr, dchar_le_one hr, one_le_dchar hr,
    dchar_le_nine hr, one_le_dchar hq, dchar_le_nine hq,
    toD_dchar hq, toD_dchar hr, true_and, and_true]
  split_ifs <;>
    first
      | (simp only [Option.some.injEq, Prod.mk.injEq, and_true]; omega)
      | (exfalso; omega)

lemma parseHour_render2 {h : ℕ} (h2 : h ≤ 23) (rest : List Char) :
    parseHour (render2 h ++ rest) = some (h, rest) := by
  have hq : h / 10 ≤ 9 := by omega
  have hr : h % 10 ≤ 9 := by omega
  simp only [render2, List.cons_append, List.nil_append, parseHour,
    dchar_eq_two hq, dchar_eq_zero hq, dchar_eq_one hq,
    dchar_isDigit hr, dchar_isDigit hq, zero_le_dchar hr, dchar_le_three hr,
    toD_dchar hq, toD_dchar hr, true_and, and_true]
  split_ifs <;>
    first
      | (simp only [Option.some.injEq, Prod.mk.injEq, and_true]; omega)
      | (exfalso; omega)

lemma parseMinSec_render2 {v : ℕ} (h2 : v ≤ 59) (rest : List Char) :
    parseMinSec (render2 v ++ rest) = some (v, rest) := by
  have hq : v / 10 ≤ 9 := by omega
  have hr : v % 10 ≤ 9 := by omega
  simp only [render2, List.cons_append, List.nil_append, parseMinSec,
    zero_le_dchar hq, dchar_le_five hq, dchar_isDigit hr, dchar_isDigit hq,
    toD_dchar hq, toD_dchar hr, true_and, and_true]
  split_ifs <;>
    first
      | (simp only [Option.some.injEq, Prod.mk.injEq, and_true]; omega)
      | (exfalso; omega)

def render4 (n : ℕ) : List Char :=
  [dchar (n / 1000 % 10), dchar (n / 100 % 10), dchar (n / 10 % 10), dchar (n % 10)]

lemma parse4Digits_render4 {y : ℕ} (hy : y ≤ 9999) (rest : List Char) :
    parse4Digits (render4 y ++ rest) = some (y, rest) := by
  have h1 : y / 1000 % 10 ≤ 9 := by omega
  have h2 : y / 100 % 10 ≤ 9 := by omega
  have h3 : y / 10 % 10 ≤ 9 := by omega
  have h4 : y % 10 ≤ 9 := by omega
  simp only [render4, List.cons_append, List.nil_append, parse4Digits,
    dchar_isDigit h1, dchar_isDigit h2, dchar_isDigit h3, dchar_isDigit h4,
    toD_dchar h1, toD_dchar h2, toD_dchar h3, toD_dchar h4,
    Bool.and_self, if_true, Option.some.injEq, Prod.mk.injEq, and_true]
  omega

def renderYMD (y m d : ℕ) : List Char :=
  render4 y ++ '-' :: (render2 m ++ '-' :: render2 d)

def renderHMS (h mi s : ℕ) : List Char :=
  render2 h ++ ':' :: (render2 mi ++ ':' :: render2 s)

lemma daysInMonth_le_31 (y m : ℕ) : daysInMonth y m ≤ 31 := by
  rw [daysInMonth]
  split_ifs <;> first | omega | (split <;> omega)

lemma validYMD_true {y m d : ℕ} (hy1 : 1 ≤ y) (hy2 : y ≤ 9999) (hm1 : 1 ≤ m)
    (hm2 : m ≤ 12) (hd1 : 1 ≤ d) (hd2 : d ≤ daysInMonth y m) :
    validYMD y m d = true := by
  simp only [validYMD, Bool.and_eq_true, decide_eq_true_eq]
  exact ⟨⟨⟨⟨⟨hy1, hy2⟩, hm1⟩, hm2⟩, hd1⟩, hd2⟩

lemma strptimeYMD_render {y m d : ℕ} (hy1 : 1 ≤ y) (hy2 : y ≤ 9999) (hm1 : 1 ≤ m)
    (hm2 : m ≤ 12) (hd1 : 1 ≤ d) (hd2 : d ≤ daysInMonth y m) :
    strptimeYMD (renderYMD y m d) = some ⟨y, m, d⟩ := by
  have hd31 : d ≤ 31 := le_trans hd2 (daysInMonth_le_31 y m)
  have hday : parseDay2 (render2 d) = some (d, []) := by
    simpa using parseDay2_render2 hd1 hd31 []
  rw [renderYMD, strptimeYMD, parse4Digits_render4 hy2]
  simp [expectCh, parseMonth2_render2 hm1 hm2, hday,
    validYMD_true hy1 hy2 hm1 hm2 hd1 hd2]

lemma dchar_ne_T {a : ℕ} (ha : a ≤ 9) : dchar a ≠ 'T' := by
  interval_cases a <;> decide

lemma dchar_not_ws {a : ℕ} (ha : a ≤ 9) : (dchar a).isWhitespace = false := by
  interval_cases a <;> decide

lemma forall_mem_render4 {n : ℕ} (P : Char → Prop) (h : ∀ a, a ≤ 9 → P (dchar a)) :
    ∀ c ∈ render4 n, P c := by
  intro c hc
  simp only [render4, List.mem_cons, List.not_mem_nil, or_false] at hc
  rcases hc with rfl | rfl | rfl | rfl <;> exact h _ (by omega)

lemma forall_mem_render2 {n : ℕ} (hn : n ≤ 99) (P : Char → Prop)
    (h : ∀ a, a ≤ 9 → P (dchar a)) : ∀ c ∈ render2 n, P c := by
  intro c hc
  simp only [render2, List.mem_cons, List.not_mem_nil, or_false] at hc
  rcases hc with rfl | rfl <;> exact h _ (by omega)

lemma forall_mem_renderYMD {y m d : ℕ} (hm : m ≤ 99) (hd : d ≤ 99) (P : Char → Prop)
    (hdig : ∀ a, a ≤ 9 → P (dchar a)) (hdash : P '-') : ∀ c ∈ renderYMD y m d, P c := by
  intro c hc
  simp only [renderYMD, List.mem_append, List.mem_cons] at hc
  rcases hc with h4 | rfl | h2 | rfl | h2
  · exact forall_mem_render4 P hdig c h4
  · exact hdash
  · exact forall_mem_render2 hm P hdig c h2
  · exact hdash
  · exact forall_mem_render2 hd P hdig c h2

lemma forall_mem_renderHMS {h mi s : ℕ} (hh : h ≤ 99) (hmi : mi ≤ 99) (hs : s ≤ 99)
    (P : Char → Prop) (hdig : ∀ a, a ≤ 9 → P (dchar a)) (hcolon : P ':') :
    ∀ c ∈ renderHMS h mi s, P c := by
  intro c hc
  simp only [renderHMS, List.mem_append, List.mem_cons] at hc
  rcases hc with h2 | rfl | h2 | rfl | h2
  · exact forall_mem_render2 hh P hdig c h2
  · exact hcolon
  · exact forall_mem_render2 hmi P hdig c h2
  · exact hcolon
  · exact forall_mem_render2 hs P hdig c h2

lemma takeWhile_append_of {p : Char → Bool} {l1 l2 : List Char}
    (h : ∀ c ∈ l1, p c = true) :
    (l1 ++ l2).takeWhile p = l1 ++ l2.takeWhile p := by
  induction l1 with
  | nil => simp
  | cons a t ih =>
    simp only [List.cons_append, List.takeWhile_cons, h a (by simp),
      ih (fun c hc => h c (by simp [hc])), if_true]

lemma dropWhile_cons_false {p : Char → Bool} {c : Char} {t : List Char}
    (h : p c = false) : (c :: t).dropWhile p = c :: t := by
  simp [List.dropWhile_cons, h]

lemma dropWhile_eq_self_of_head {p : Char → Bool} {s : List Char}
    (h : ∀ c, s.head? = some c → p c = false) : s.dropWhile p = s := by
  cases s with
  | nil => rfl
  | cons a t => exact dropWhile_cons_false (h a rfl)

lemma pyStrip_eq_self {s : List Char}
    (h1 : ∀ c, s.head? = some c → c.isWhitespace = false)
    (h2 : ∀ c, s.reverse.head? = some c → c.isWhitespace = false) : pyStrip s = s := by
  rw [pyStrip, dropWhile_eq_self_of_head h1, dropWhile_eq_self_of_head h2,
    List.reverse_reverse]

lemma renderYMD_head {y m d : ℕ} :
    (renderYMD y m d).head? = some (dchar (y / 1000 % 10)) := rfl

lemma renderYMD_rev_head {y m d : ℕ} :
    (renderYMD y m d).reverse.head? = some (dchar (d % 10)) := by
  simp [renderYMD, render4, render2]

lemma T_string_rev_head {y m d hh mi ss : ℕ} :
    (renderYMD y m d ++ 'T' :: renderHMS hh mi ss).reverse.head? = some (dchar (ss % 10)) := by
  simp [renderYMD, renderHMS, render4, render2]

lemma sp_string_rev_head {y m d hh mi ss : ℕ} :
    (renderYMD y m d ++ ' ' :: renderHMS hh mi ss).reverse.head? = some (dchar (ss % 10)) := by
  simp [renderYMD, renderHMS, render4, render2]

lemma reduce_renderYMD {y m d : ℕ} (hm : m ≤ 99) (hd : d ≤ 99) :
    reduceDateStr (renderYMD y m d) = renderYMD y m d := by
  have hT : 'T' ∉ renderYMD y m d := by
    intro hc
    exact forall_mem_renderYMD hm hd (fun c => c ≠ 'T')
      (fun a ha => dchar_ne_T ha) (by decide) 'T' hc rfl
  have hSp : ' ' ∉ renderYMD y m d := by
    intro hc
    exact forall_mem_renderYMD hm hd (fun c => c ≠ ' ')
      (fun a ha => by interval_cases a <;> decide) (by decide) ' ' hc rfl
  rw [reduceDateStr, if_neg hT, if_neg (by tauto)]

lemma reduce_T_string {y m d hh mi ss : ℕ} (hm : m ≤ 99) (hd : d ≤ 99) :
    reduceDateStr (renderYMD y m d ++ 'T' :: renderHMS hh mi ss) = renderYMD y m d := by
  have hT : 'T' ∈ renderYMD y m d ++ 'T' :: renderHMS hh mi ss := by simp
  have hymd : ∀ c ∈ renderYMD y m d, (c != 'T') = true := by
    refine forall_mem_renderYMD hm hd _ (fun a ha => ?_) (by decide)
    simpa using dchar_ne_T ha
  rw [reduceDateStr, if_pos hT, takeWhile_append_of hymd]
  simp [List.takeWhile_cons]

lemma reduce_sp_string {y m d hh mi ss : ℕ} (hm : m ≤ 99) (hd : d ≤ 99)
    (hhh : hh ≤ 99) (hmi : mi ≤ 99) (hss : ss ≤ 99) :
    reduceDateStr (renderYMD y m d ++ ' ' :: renderHMS hh mi ss) = renderYMD y m d := by
  have hT : 'T' ∉ renderYMD y m d ++ ' ' :: renderHMS hh mi ss := by
    intro hc
    simp only [List.mem_append, List.mem_cons] at hc
    rcases hc with h1 | h0 | h2
    · exact forall_mem_renderYMD hm hd (fun c => c ≠ 'T')
        (fun a ha => dchar_ne_T ha) (by decide) 'T' h1 rfl
    · exact absurd h0 (by decide)
    · exact forall_mem_renderHMS hhh hmi hss (fun c => c ≠ 'T')
        (fun a ha => dchar_ne_T ha) (by decide) 'T' h2 rfl
  have hcond : ' ' ∈ renderYMD y m d ++ ' ' :: renderHMS hh mi ss ∧
      ':' ∈ renderYMD y m d ++ ' ' :: renderHMS hh mi ss := by
    constructor
    · simp
    · simp [renderHMS]
  have hymd : ∀ c ∈ renderYMD y m d, (!c.isWhitespace) = true := by
    refine forall_mem_renderYMD hm hd _ (fun a ha => ?_) (by decide)
    simp [dchar_not_ws ha]
  rw [reduceDateStr, if_neg hT, if_pos hcond,
    dropWhile_eq_self_of_head (fun c hc => by
      have hc2 : c = dchar (y / 1000 % 10) := by
        rw [show (renderYMD y m d ++ ' ' :: renderHMS hh mi ss).head? =
            some (dchar (y / 1000 % 10)) from rfl] at hc
        simpa using hc.symm
      subst hc2
      exact dchar_not_ws (by omega)), takeWhile_append_of hymd]
  simp

lemma pyStrip_renderYMD {y m d : ℕ} : pyStrip (renderYMD y m d) = renderYMD y m d := by
  refine pyStrip_eq_self (fun c hc => ?_) (fun c hc => ?_)
  · rw [renderYMD_head] at hc
    obtain rfl : dchar (y / 1000 % 10) = c := by simpa using hc
    exact dchar_not_ws (by omega)
  · rw [renderYMD_rev_head] at hc
    obtain rfl : dchar (d % 10) = c := by simpa using hc
    exact dchar_not_ws (by omega)

lemma parse_date_renderYMD {y m d : ℕ} (hy1 : 1 ≤ y) (hy2 : y ≤ 9999) (hm1 : 1 ≤ m)
    (hm2 : m ≤ 12) (hd1 : 1 ≤ d) (hd2 : d ≤ daysInMonth y m) :
    parse_date (renderYMD y m d) = some ⟨y, m, d⟩ := by
  have hd31 : d ≤ 31 := le_trans hd2 (daysInMonth_le_31 y m)
  have hne : (renderYMD y m d).isEmpty = false := rfl
  rw [parse_date, hne, if_neg (by simp), pyStrip_renderYMD]
  rw [parse_date_go]
  simp only [runFmt, reduce_renderYMD (m := m) (d := d) (by omega) (by omega),
    strptimeYMD_render hy1 hy2 hm1 hm2 hd1 hd2]

lemma pyStrip_T_string {y m d hh mi ss : ℕ} :
    pyStrip (renderYMD y m d ++ 'T' :: renderHMS hh mi ss)
      = renderYMD y m d ++ 'T' :: renderHMS hh mi ss := by
  refine pyStrip_eq_self (fun c hc => ?_) (fun c hc => ?_)
  · rw [show (renderYMD y m d ++ 'T' :: renderHMS hh mi ss).head? =
        some (dchar (y / 1000 % 10)) from rfl] at hc
    obtain rfl : dchar (y / 1000 % 10) = c := by simpa using hc
    exact dchar_not_ws (by omega)
  · rw [T_string_rev_head] at hc
    obtain rfl : dchar (ss % 10) = c := by simpa using hc
    exact dchar_not_ws (by omega)

lemma pyStrip_sp_string {y m d hh mi ss : ℕ} :
    pyStrip (renderYMD y m d ++ ' ' :: renderHMS hh mi ss)
      = renderYMD y m d ++ ' ' :: renderHMS hh mi ss := by
  refine pyStrip_eq_self (fun c hc => ?_) (fun c hc => ?_)
  · rw [show (renderYMD y m d ++ ' ' :: renderHMS hh mi ss).head? =
        some (dchar (y / 1000 % 10)) from rfl] at hc
    obtain rfl : dchar (y / 1000 % 10) = c := by simpa using hc
    exact dchar_not_ws (by omega)
  · rw [sp_string_rev_head] at hc
    obtain rfl : dchar (ss % 10) = c := by simpa using hc
    exact dchar_not_ws (by omega)

lemma parse_date_T_string {y m d hh mi ss : ℕ} (hy1 : 1 ≤ y) (hy2 : y ≤ 9999)
    (hm1 : 1 ≤ m) (hm2 : m ≤ 12) (hd1 : 1 ≤ d) (hd2 : d ≤ daysInMonth y m) :
    parse_date (renderYMD y m d ++ 'T' :: renderHMS hh mi ss) = some ⟨y, m, d⟩ := by
  have hd31 : d ≤ 31 := le_trans hd2 (daysInMonth_le_31 y m)
  have hne : (renderYMD y m d ++ 'T' :: renderHMS hh mi ss).isEmpty = false := rfl
  rw [parse_date, hne, if_neg (by simp), pyStrip_T_string]
  rw [parse_date_go]
  simp only [runFmt,
    @reduce_T_string y m d hh mi ss (by omega) (by omega),
    strptimeYMD_render hy1 hy2 hm1 hm2 hd1 hd2]

lemma parse_date_sp_string {y m d hh mi ss : ℕ} (hy1 : 1 ≤ y) (hy2 : y ≤ 9999)
    (hm1 : 1 ≤ m) (hm2 : m ≤ 12) (hd1 : 1 ≤ d) (hd2 : d ≤ daysInMonth y m)
    (hhh : hh ≤ 23) (hmi : mi ≤ 59) (hss : ss ≤ 59) :
    parse_date (renderYMD y m d ++ ' ' :: renderHMS hh mi ss) = some ⟨y, m, d⟩ := by
  have hd31 : d ≤ 31 := le_trans hd2 (daysInMonth_le_31 y m)
  have hne : (renderYMD y m d ++ ' ' :: renderHMS hh mi ss).isEmpty = false := rfl
  rw [parse_date, hne, if_neg (by simp), pyStrip_sp_string]
  rw [parse_date_go]
  simp only [runFmt,
    @reduce_sp_string y m d hh mi ss (by omega) (by omega) (by omega) (by omega) (by omega),
    strptimeYMD_render hy1 hy2 hm1 hm2 hd1 hd2]

/-- C6: for every calendar date (year 1-9999, valid month/day) and any
time-of-day, the three supported forms "YYYY-MM-DD", "YYYY-MM-DDTHH:MM:SS"
and "YYYY-MM-DD HH:MM:SS" all parse to that same CalendarDate; the given
example strings for March 5, 2024 do so concretely; and unsupported inputs
("hello", the invalid date "2024-02-31", the empty string) yield `none`.
The embedded `parse_date` is a total function into `Option`, which models
"lets no exception propagate": every failure is a `none`, never an error. -/
theorem C6_parse_date_formats (y m d hh mi ss : ℕ)
    (hy : 1 ≤ y ∧ y ≤ 9999) (hm : 1 ≤ m ∧ m ≤ 12) (hd : 1 ≤ d ∧ d ≤ daysInMonth y m)
    (hhh : hh ≤ 23) (hmi : mi ≤ 59) (hss : ss ≤ 59) :
    (parse_date (renderYMD y m d) = some ⟨y, m, d⟩ ∧
     parse_date (renderYMD y m d ++ 'T' :: renderHMS hh mi ss) = some ⟨y, m, d⟩ ∧
     parse_date (renderYMD y m d ++ ' ' :: renderHMS hh mi ss) = some ⟨y, m, d⟩) ∧
    (parse_date "2024-03-05".toList = some ⟨2024, 3, 5⟩ ∧
     parse_date "2024-03-05T09:30:00".toList = some ⟨2024, 3, 5⟩ ∧
     parse_date "2024-03-05 09:30:00".toList = some ⟨2024, 3, 5⟩) ∧
    (parse_date "hello".toList = none ∧
     parse_date "2024-02-31".toList = none ∧
     parse_date [] = none) := by
  refine ⟨⟨?_, ?_, ?_⟩, ⟨by decide, by decide, by decide⟩, by decide, by decide, by decide⟩
  · exact parse_date_renderYMD hy.1 hy.2 hm.1 hm.2 hd.1 hd.2
  · exact parse_date_T_string hy.1 hy.2 hm.1 hm.2 hd.1 hd.2
  · exact parse_date_sp_string hy.1 hy.2 hm.1 hm.2 hd.1 hd.2 hhh hmi hss

/-- Witness for C6 at March 5, 2024 with time 09:30:00: all three forms
parse to the same date. -/
theorem C6_parse_date_formats_witness :
    parse_date (renderYMD 2024 3 5) = some ⟨2024, 3, 5⟩ ∧
    parse_date (renderYMD 2024 3 5 ++ 'T' :: renderHMS 9 30 0) = some ⟨2024, 3, 5⟩ ∧
    parse_date (renderYMD 2024 3 5 ++ ' ' :: renderHMS 9 30 0) = some ⟨2024, 3, 5⟩ :=
  (C6_parse_date_formats 2024 3 5 9 30 0 (by norm_num) (by norm_num)
    (by norm_num [daysInMonth, isLeap]) (by norm_num) (by norm_num) (by norm_num)).1

/-! ## Fundamentals timeline building (Editers/snapshots.py, lines 88-150)

The fundamentals source file is a JSON dictionary: indicator arrays of
`{date, value}` / `{date, close, volume}` observations, sibling
`{CODE}_END_DATE` string fields, and possibly-null values; it is modelled
as a function `String → Option FundVal`.  `date_data` is the `defaultdict`
mapping each calendar date to its per-category record; here only the
`fundamentals` sub-dictionary matters, so the state is
`CalDate → List (String × Stored)` with Python dict-assignment semantics
(`dictSet`).  The five processing blocks — daily keys, the GLD/IAU ETFs,
weekly jobless claims, monthly indicators, and the derived REAL_RATE —
run in source order starting from the empty mapping. -/

/-- One observation record of a fundamentals array.  The `date` field is a
string when present (as the upstream fetcher emits). -/
structure FEntry where
  date : Option (List Char)
  value : Option ℚ
  close : Option ℚ
  volume : Option ℚ
deriving DecidableEq, Repr

/-- A value of the fundamentals dictionary. -/
inductive FundVal where
  | arr : List FEntry → FundVal
  | strv : List Char → FundVal
  | nullv : FundVal
deriving DecidableEq, Repr

/-- What gets stored into a date's fundamentals record. -/
inductive Stored where
  | num : Option ℚ → Stored
  | series : List FEntry → Stored
  | raw : FundVal → Stored
deriving DecidableEq, Repr

/-- Python truthiness of a fundamentals value. -/
def truthyFV : FundVal → Bool
  | .arr l => !l.isEmpty
  | .strv s => !s.isEmpty
  | .nullv => false

/-- Python `str(...)` of a fundamentals value as fed to `parse_date`.
`str` of a list begins with `'['`, and only that first character is
behaviourally relevant (no date format matches a string starting with
`'['`); `str(None)` is `"None"` but is unreachable behind the truthiness
guard. -/
def pyStrFV : FundVal → List Char
  | .strv s => s
  | .arr _ => ['[']
  | .nullv => "None".toList

/-- Python dict assignment `d[k] = v` on an association list. -/
def dictSet {α : Type} (d : List (String × α)) (k : String) (v : α) :
    List (String × α) :=
  if d.any (fun p => p.1 = k) then d.map (fun p => if p.1 = k then (k, v) else p)
  else d ++ [(k, v)]

/-- The per-date fundamentals records (`date_data[...]["fundamentals"]`). -/
abbrev DateData := CalDate → List (String × Stored)

/-- `date_data[date_obj]["fundamentals"][key] = v`. -/
def updFund (dd : DateData) (dateObj : CalDate) (k : String) (v : Stored) :
    DateData :=
  fun dte => if dte = dateObj then dictSet (dd dte) k v else dd dte

/-- `date = entry.get("date"); if date: date_obj = parse_date(date); if date_obj:` -/
def entryDateObj (e : FEntry) : Option CalDate :=
  match e.date with
  | some ds => if ds.isEmpty then none else parse_date ds
  | none => none

def daily_keys : List String := ["TREASURY_10Y", "HY_CREDIT_SPREAD"]

def monthly_keys : List String :=
  ["CPI", "PCE", "PPI", "UNEMPLOYMENT", "NFP", "FEDFUNDS", "M2_MONEY_SUPPLY",
   "RETAIL_SALES", "INDUSTRIAL_PROD", "HOUSING_STARTS"]

/-- Daily metrics with history: one scalar per dated observation. -/
def procDaily (data : String → Option FundVal) (dd : DateData) : DateData :=
  daily_keys.foldl (fun dd key =>
    match data key with
    | some (FundVal.arr entries) =>
      entries.foldl (fun dd e =>
        match entryDateObj e with
        | some dobj => updFund dd dobj key (Stored.num e.value)
        | none => dd) dd
    | _ => dd) dd

/-- GLD and IAU: close and volume per dated observation. -/
def procETF (data : String → Option FundVal) (dd : DateData) : DateData :=
  (["GLD", "IAU"] : List String).foldl (fun dd etf =>
    match data etf with
    | some (FundVal.arr entries) =>
      entries.foldl (fun dd e =>
        match entryDateObj e with
        | some dobj =>
          updFund (updFund dd dobj (etf ++ "_CLOSE") (Stored.num e.close))
            dobj (etf ++ "_VOLUME") (Stored.num e.volume)
        | none => dd) dd
    | _ => dd) dd

/-- Weekly metrics: jobless claims. -/
def procWeekly (data : String → Option FundVal) (dd : DateData) : DateData :=
  match data "JOBLESS_CLAIMS" with
  | some (FundVal.arr entries) =>
    entries.foldl (fun dd e =>
      match entryDateObj e with
      | some dobj => updFund dd dobj "JOBLESS_CLAIMS" (Stored.num e.value)
      | none => dd) dd
  | _ => dd

/-- `end_date_str = data.get(f"{key}_END_DATE"); if end_date_str:
parse_date(end_date_str)` — the resolved official end date, if any. -/
def endDateObj (data : String → Option FundVal) (key : String) : Option CalDate :=
  match data (key ++ "_END_DATE") with
  | some v => if truthyFV v then parse_date (pyStrFV v) else none
  | none => none

/-- The loop body of the monthly block: a nonempty array is attached whole
to the resolved end date; otherwise the indicator is skipped. -/
def monthlyStep (data : String → Option FundVal) (dd : DateData) (key : String) :
    DateData :=
  match data key with
  | some (FundVal.arr entries) =>
    if entries.isEmpty then dd
    else
      match endDateObj data key with
      | some dobj => updFund dd dobj key (Stored.series entries)
      | none => dd
  | _ => dd

/-- Monthly metrics: the body above, over the monthly keys in source order. -/
def procMonthly (data : String → Option FundVal) (dd : DateData) : DateData :=
  monthly_keys.foldl (monthlyStep data) dd

/-- Calculated REAL_RATE: the raw value at its own end date. -/
def procRealRate (data : String → Option FundVal) (dd : DateData) : DateData :=
  match data "REAL_RATE" with
  | some v =>
    if v = FundVal.nullv then dd
    else
      match endDateObj data "REAL_RATE" with
      | some dobj => updFund dd dobj "REAL_RATE" (Stored.raw v)
      | none => dd
  | none => dd

/-- The fundamentals part of `extract_all_dates_and_data`: the five blocks
in source order, from the empty mapping. -/
def extract_fundamentals (data : String → Option FundVal) : DateData :=
  procRealRate data (procMonthly data (procWeekly data (procETF data
    (procDaily data (fun _ => [])))))

/-! ### Dictionary and fold lemmas for the fundamentals timeline -/

lemma dlookup_cons {α : Type} (x : String × α) (t : List (String × α)) (k : String) :
    dlookup k (x :: t) = if x.1 = k then some x.2 else dlookup k t := by
  rw [dlookup]
  by_cases h : x.1 = k
  · rw [List.find?_cons_of_pos _ (by simpa using h), if_pos h]
    rfl
  · rw [List.find?_cons_of_neg _ (by simpa using h), if_neg h]
    rfl

lemma dlookup_map_set {α : Type} (t : List (String × α)) (k k' : String) (v : α) :
    dlookup k (t.map (fun p => if p.1 = k' then (k', v) else p)) =
      if k' = k ∧ (t.any (fun p => p.1 = k')) then some v else dlookup k t := by
  induction t with
  | nil => simp
  | cons p t ih =>
    simp only [List.map_cons, List.any_cons]
    by_cases hp : p.1 = k' <;> by_cases hk : k' = k
    · subst hk
      simp [hp, dlookup_cons]
    · have hpk : ¬ p.1 = k := by rw [hp]; exact hk
      simp [hp, hk, hpk, dlookup_cons, ih]
    · subst hk
      have hd : (decide (p.1 = k')) = false := decide_eq_false hp
      rw [if_neg hp, dlookup_cons, dlookup_cons, if_neg hp, if_neg hp, ih]
      exact if_congr (by simp [hp]) rfl rfl
    · have hd : (decide (p.1 = k')) = false := decide_eq_false hp
      simp [hp, hk, dlookup_cons, ih, hd]

lemma dlookup_append_single {α : Type} (d : List (String × α)) (k k' : String) (v : α) :
    dlookup k (d ++ [(k', v)]) =
      match dlookup k d with
      | some w => some w
      | none => if k' = k then some v else none := by
  induction d with
  | nil => simp [dlookup_cons]; rfl
  | cons p t ih =>
    rw [List.cons_append, dlookup_cons, dlookup_cons]
    by_cases hpk : p.1 = k
    · simp [hpk]
    · rw [if_neg hpk, if_neg hpk, ih]

lemma dlookup_dictSet_self {α : Type} (d : List (String × α)) (k : String) (v : α) :
    dlookup k (dictSet d k v) = some v := by
  rw [dictSet]
  by_cases hany : d.any (fun p => p.1 = k)
  · rw [if_pos hany, dlookup_map_set, if_pos ⟨rfl, hany⟩]
  · rw [if_neg hany, dlookup_append_single]
    have hnone : dlookup k d = none := by
      induction d with
      | nil => rfl
      | cons p t ih2 =>
        rw [dlookup_cons, if_neg (by
          intro hh
          exact hany (by simp [List.any_cons, hh]))]
        exact ih2 (by
          intro hh
          exact hany (by simp [List.any_cons, hh]))
    rw [hnone]
    simp

lemma dlookup_dictSet_ne {α : Type} (d : List (String × α)) (k k' : String) (v : α)
    (h : k' ≠ k) : dlookup k (dictSet d k' v) = dlookup k d := by
  rw [dictSet]
  by_cases hany : d.any (fun p => p.1 = k')
  · rw [if_pos hany, dlookup_map_set, if_neg (by simp [h])]
  · rw [if_neg hany, dlookup_append_single]
    cases hd : dlookup k d with
    | some w => rfl
    | none => simp [h]

lemma dlookup_updFund_ne {dd : DateData} {dobj : CalDate} {k' : String} {v : Stored}
    {key : String} (h : k' ≠ key) (dte : CalDate) :
    dlookup key (updFund dd dobj k' v dte) = dlookup key (dd dte) := by
  rw [updFund]
  split
  · exact dlookup_dictSet_ne _ _ _ _ h
  · rfl

lemma dlookup_updFund_self {dd : DateData} {dobj : CalDate} {k : String} {v : Stored}
    (dte : CalDate) :
    dlookup k (updFund dd dobj k v dte) =
      if dte = dobj then some v else dlookup k (dd dte) := by
  rw [updFund]
  split <;> simp_all [dlookup_dictSet_self]

lemma dlookup_foldl_preserve {β : Type} {f : DateData → β → DateData} {l : List β}
    {dd : DateData} {key : String} {dte : CalDate}
    (h : ∀ dd b, b ∈ l → dlookup key (f dd b dte) = dlookup key (dd dte)) :
    dlookup key (l.foldl f dd dte) = dlookup key (dd dte) := by
  induction l generalizing dd with
  | nil => rfl
  | cons b t ih =>
    rw [List.foldl_cons, ih (fun dd b hb => h dd b (by simp [hb]))]
    exact h dd b (by simp)


lemma monthly_key_ne (key : String) (hk : key ∈ monthly_keys) :
    key ≠ "TREASURY_10Y" ∧ key ≠ "HY_CREDIT_SPREAD" ∧ key ≠ "GLD_CLOSE" ∧
    key ≠ "GLD_VOLUME" ∧ key ≠ "IAU_CLOSE" ∧ key ≠ "IAU_VOLUME" ∧
    key ≠ "JOBLESS_CLAIMS" ∧ key ≠ "REAL_RATE" := by
  fin_cases hk <;> refine ⟨?_, ?_, ?_, ?_, ?_, ?_, ?_, ?_⟩ <;> decide

lemma procDaily_preserve {data : String → Option FundVal} {dd : DateData}
    {key : String} (h1 : key ≠ "TREASURY_10Y") (h2 : key ≠ "HY_CREDIT_SPREAD")
    (dte : CalDate) :
    dlookup key (procDaily data dd dte) = dlookup key (dd dte) := by
  rw [procDaily]
  refine dlookup_foldl_preserve (fun dd b hb => ?_)
  have hbk : b ≠ key := by
    rcases (by simpa [daily_keys] using hb : b = "TREASURY_10Y" ∨ b = "HY_CREDIT_SPREAD")
      with rfl | rfl
    · exact fun hh => h1 hh.symm
    · exact fun hh => h2 hh.symm
  cases hdata : data b with
  | none => rfl
  | some v =>
    cases v with
    | arr entries =>
      refine dlookup_foldl_preserve (fun dd e he => ?_)
      cases hobj : entryDateObj e with
      | none => rfl
      | some dobj => exact dlookup_updFund_ne hbk _
    | strv s => rfl
    | nullv => rfl

lemma procETF_preserve {data : String → Option FundVal} {dd : DateData}
    {key : String} (h1 : key ≠ "GLD_CLOSE") (h2 : key ≠ "GLD_VOLUME")
    (h3 : key ≠ "IAU_CLOSE") (h4 : key ≠ "IAU_VOLUME") (dte : CalDate) :
    dlookup key (procETF data dd dte) = dlookup key (dd dte) := by
  rw [procETF]
  refine dlookup_foldl_preserve (fun dd b hb => ?_)
  have hbc : b ++ "_CLOSE" ≠ key ∧ b ++ "_VOLUME" ≠ key := by
    rcases (by simpa using hb : b = "GLD" ∨ b = "IAU") with rfl | rfl
    · exact ⟨fun hh => h1 hh.symm, fun hh => h2 hh.symm⟩
    · exact ⟨fun hh => h3 hh.symm, fun hh => h4 hh.symm⟩
  cases hdata : data b with
  | none => rfl
  | some v =>
    cases v with
    | arr entries =>
      refine dlookup_foldl_preserve (fun dd e he => ?_)
      cases hobj : entryDateObj e with
      | none => rfl
      | some dobj =>
        rw [dlookup_updFund_ne hbc.2, dlookup_updFund_ne hbc.1]
    | strv s => rfl
    | nullv => rfl

lemma procWeekly_preserve {data : String → Option FundVal} {dd : DateData}
    {key : String} (h1 : key ≠ "JOBLESS_CLAIMS") (dte : CalDate) :
    dlookup key (procWeekly data dd dte) = dlookup key (dd dte) := by
  rw [procWeekly]
  cases hdata : data "JOBLESS_CLAIMS" with
  | none => rfl
  | some v =>
    cases v with
    | arr entries =>
      refine dlookup_foldl_preserve (fun dd e he => ?_)
      cases hobj : entryDateObj e with
      | none => rfl
      | some dobj => exact dlookup_updFund_ne (fun hh => h1 hh.symm) _
    | strv s => rfl
    | nullv => rfl

lemma procRealRate_preserve {data : String → Option FundVal} {dd : DateData}
    {key : String} (h1 : key ≠ "REAL_RATE") (dte : CalDate) :
    dlookup key (procRealRate data dd dte) = dlookup key (dd dte) := by
  rw [procRealRate]
  cases hdata : data "REAL_RATE" with
  | none => rfl
  | some v =>
    by_cases hv : v = FundVal.nullv
    · simp [hv]
    · simp only [hv, if_neg, if_false]
      cases hobj : endDateObj data "REAL_RATE" with
      | none => simp [hv]
      | some dobj =>
        simp only [hv, if_false]
        rw [dlookup_updFund_ne (fun hh => h1 hh.symm)]


lemma monthlyStep_preserve {data : String → Option FundVal} {dd : DateData}
    {key b : String} (hbk : b ≠ key) (dte : CalDate) :
    dlookup key (monthlyStep data dd b dte) = dlookup key (dd dte) := by
  rw [monthlyStep]
  cases hdata : data b with
  | none => rfl
  | some v =>
    cases v with
    | arr entries =>
      by_cases he : entries.isEmpty
      · simp [he]
      · simp only [he, if_false]
        cases hobj : endDateObj data b with
        | none => rfl
        | some dobj => exact dlookup_updFund_ne hbk _
    | strv sv => rfl
    | nullv => rfl

lemma procMonthly_lookup {data : String → Option FundVal} {dd : DateData}
    {key : String} (hk : key ∈ monthly_keys) (dte : CalDate) :
    dlookup key (procMonthly data dd dte) =
      match data key with
      | some (FundVal.arr entries) =>
        if entries.isEmpty then dlookup key (dd dte)
        else
          match endDateObj data key with
          | some dobj =>
            if dte = dobj then some (Stored.series entries) else dlookup key (dd dte)
          | none => dlookup key (dd dte)
      | _ => dlookup key (dd dte) := by
  obtain ⟨s, t, hsplit⟩ := List.append_of_mem hk
  have hnd : monthly_keys.Nodup := by decide
  rw [hsplit] at hnd
  have hks : ∀ b ∈ s, b ≠ key := by
    intro b hb hbk
    subst hbk
    exact (List.disjoint_of_nodup_append hnd) hb (by simp)
  have hkt : key ∉ t := by
    have := (List.nodup_append.mp hnd).2.1
    exact (List.nodup_cons.mp this).1
  rw [procMonthly, hsplit, List.foldl_append, List.foldl_cons]
  rw [dlookup_foldl_preserve
    (fun dd b hb => monthlyStep_preserve (fun hh => hkt (by rwa [hh] at hb)) dte)]
  have hpre : dlookup key ((List.foldl (monthlyStep data) dd s) dte)
      = dlookup key (dd dte) :=
    dlookup_foldl_preserve (fun dd b hb => monthlyStep_preserve (hks b hb) dte)
  rw [monthlyStep]
  cases hdata : data key with
  | none => exact hpre
  | some v =>
    cases v with
    | arr entries =>
      by_cases he : entries.isEmpty
      · simpa [he] using hpre
      · cases hobj : endDateObj data key with
        | none => simpa [he] using hpre
        | some dobj =>
          simp only [he, Bool.false_eq_true, if_false]
          rw [dlookup_updFund_self]
          by_cases hdte : dte = dobj
          · simp [hdte]
          · simp only [hdte, if_false]
            exact hpre
    | strv sv => exact hpre
    | nullv => exact hpre

/-- C5: for every fundamentals source and monthly indicator code with a
nonempty observed series, if the sibling `{CODE}_END_DATE` field resolves
(is present, truthy, and parses to a calendar date), the full series is
stored under exactly that one date — the indicator's key is absent from the
fundamentals record of every other date; if the end-date field is absent,
falsy, or unparseable, the indicator appears under no date at all. -/
theorem C5_monthly_single_date
    (data : String → Option FundVal) (key : String) (hkey : key ∈ monthly_keys)
    (entries : List FEntry) (hdata : data key = some (FundVal.arr entries))
    (hne : entries.isEmpty = false) :
    (∀ dobj, endDateObj data key = some dobj →
      dlookup key (extract_fundamentals data dobj) = some (Stored.series entries) ∧
      ∀ dte, dte ≠ dobj → dlookup key (extract_fundamentals data dte) = none) ∧
    (endDateObj data key = none →
      ∀ dte, dlookup key (extract_fundamentals data dte) = none) := by
  obtain ⟨n1, n2, n3, n4, n5, n6, n7, n8⟩ := monthly_key_ne key hkey
  have hbase : ∀ dte, dlookup key ((procWeekly data (procETF data (procDaily data
      (fun _ => ([] : List (String × Stored)))))) dte) = none := by
    intro dte
    rw [procWeekly_preserve n7, procETF_preserve n3 n4 n5 n6, procDaily_preserve n1 n2]
    rfl
  have hext : ∀ dte, dlookup key (extract_fundamentals data dte) =
      dlookup key ((procMonthly data (procWeekly data (procETF data (procDaily data
        (fun _ => []))))) dte) := by
    intro dte
    rw [extract_fundamentals, procRealRate_preserve n8]
  constructor
  · intro dobj hobj
    constructor
    · rw [hext, procMonthly_lookup hkey, hdata]
      simp [hne, hobj]
    · intro dte hdte
      rw [hext, procMonthly_lookup hkey, hdata]
      simp [hne, hobj, hdte, hbase dte]
  · intro hobj dte
    rw [hext, procMonthly_lookup hkey, hdata]
    simp [hne, hobj, hbase dte]

/-- Witness for C5: a source carrying a one-element CPI series with end
date "2024-03-05" attaches the series at March 5, 2024 only — in
particular not at the observation's own date of January 15, 2024. -/
theorem C5_monthly_single_date_witness :
    dlookup "CPI" (extract_fundamentals
      (fun k => if k = "CPI" then
          some (FundVal.arr [⟨some "2024-01-15".toList, none, none, none⟩])
        else if k = "CPI_END_DATE" then some (FundVal.strv "2024-03-05".toList)
        else none)
      ⟨2024, 3, 5⟩) =
      some (Stored.series [⟨some "2024-01-15".toList, none, none, none⟩]) ∧
    dlookup "CPI" (extract_fundamentals
      (fun k => if k = "CPI" then
          some (FundVal.arr [⟨some "2024-01-15".toList, none, none, none⟩])
        else if k = "CPI_END_DATE" then some (FundVal.strv "2024-03-05".toList)
        else none)
      ⟨2024, 1, 15⟩) = none := by
  have h := (C5_monthly_single_date
    (fun k => if k = "CPI" then
        some (FundVal.arr [⟨some "2024-01-15".toList, none, none, none⟩])
      else if k = "CPI_END_DATE" then some (FundVal.strv "2024-03-05".toList)
      else none)
    "CPI" (by decide) [⟨some "2024-01-15".toList, none, none, none⟩]
    (by decide) (by decide)).1 ⟨2024, 3, 5⟩ (by decide)
  exact ⟨h.1, h.2 ⟨2024, 1, 15⟩ (by decide)⟩

/-! ## NewsSentimentLayer.dedup_across_timeframes (newsentiment.py, lines 207-251)

Items are identified by title; the payload is the parsed timestamp.  The
Python function first builds `all_titles`, an insertion-ordered dict from
title to its occurrence list — every `(timeframe, item)` pair holding that
title, scanning 30D, then 7D, then 24H, each bucket in list order.  That
dict is modelled by its key list (`firstSeen` of all titles, first-seen
order, no duplicates) together with the per-title occurrence list
(`occsOf`, the same scan filtered to the title — identical contents and
order).  The loop body (`processTitle`) then mutates the bucket lists via
`list.remove` (erase the first equal element), modelled by `List.erase`
guarded by the same `in` check as the source. -/

/-- A news/social item as the cross-timeframe dedup sees it. -/
structure NItem where
  title : String
  timestamp : ℤ
deriving DecidableEq, Repr

/-- The three timeframe names. -/
inductive TF where
  | t30 | t7 | t24
deriving DecidableEq, Repr

/-- The three timeframe buckets (`timeframes["30D"|"7D"|"24H"]`). -/
structure Timeframes where
  d30 : List NItem
  d7 : List NItem
  h24 : List NItem
deriving DecidableEq, Repr

/-- All `(timeframe, item)` pairs in the scan order of the source:
30D, then 7D, then 24H. -/
def tfItems (tfs : Timeframes) : List (TF × NItem) :=
  tfs.d30.map (Prod.mk TF.t30) ++ tfs.d7.map (Prod.mk TF.t7)
    ++ tfs.h24.map (Prod.mk TF.t24)

/-- The titles of a bucket. -/
def titlesOf (l : List NItem) : List String := l.map (fun i => i.title)

/-- Distinct values in first-seen order: the key order of the
insertion-ordered `all_titles` dict. -/
def firstSeen : List String → List String
  | [] => []
  | t :: rest => t :: firstSeen (rest.filter (fun x => x ≠ t))
termination_by l => l.length
decreasing_by
  simp only [List.length_cons]
  exact Nat.lt_succ_of_le (List.length_filter_le _ _)

/-- `all_titles[T]`: the occurrence list of title `T`. -/
def occsOf (tfs : Timeframes) (T : String) : List (TF × NItem) :=
  (tfItems tfs).filter (fun o => o.2.title = T)

/-- The removal loop of one branch: for each occurrence tagged with the
given timeframe, `if occ['item'] in bucket: bucket.remove(occ['item'])`. -/
def removeOccs (l : List NItem) (occs : List (TF × NItem)) (tf : TF) : List NItem :=
  occs.foldl (fun cur occ =>
    if occ.1 = tf then (if occ.2 ∈ cur then cur.erase occ.2 else cur) else cur) l

/-- The body of the `for title, occurrences in all_titles.items()` loop:
skip singletons, then the three removal branches in source order. -/
def processTitle (tfs : Timeframes) (occs : List (TF × NItem)) : Timeframes :=
  if occs.length ≤ 1 then tfs
  else
    let tfsPresent := occs.map Prod.fst
    let tfs1 :=
      if TF.t24 ∈ tfsPresent ∧ TF.t7 ∈ tfsPresent then
        { tfs with d7 := removeOccs tfs.d7 occs TF.t7 }
      else tfs
    let tfs2 :=
      if TF.t24 ∈ tfsPresent ∧ TF.t30 ∈ tfsPresent then
        { tfs1 with d30 := removeOccs tfs1.d30 occs TF.t30 }
      else tfs1
    if TF.t7 ∈ tfsPresent ∧ TF.t30 ∈ tfsPresent ∧ TF.t24 ∉ tfsPresent then
      { tfs2 with d30 := removeOccs tfs2.d30 occs TF.t30 }
    else tfs2

/-- Embedding of `dedup_across_timeframes`: fold the loop body over the
titles in first-seen order, occurrence lists computed from the input
buckets (as `all_titles` was built before the loop). -/
def dedup_across_timeframes (tfs : Timeframes) : Timeframes :=
  (firstSeen ((tfItems tfs).map (fun o => o.2.title))).foldl
    (fun cur T => processTitle cur (occsOf tfs T)) tfs

/-- Total item count of the three buckets. -/
def totalCount (t : Timeframes) : ℕ := t.d30.length + t.d7.length + t.h24.length

end TradingBot

namespace TradingBot

lemma mem_firstSeen {a : String} : ∀ {l : List String}, a ∈ firstSeen l ↔ a ∈ l := by
  intro l
  induction l using firstSeen.induct with
  | case1 => simp [firstSeen]
  | case2 t rest ih =>
    rw [firstSeen]
    simp only [List.mem_cons, ih, List.mem_filter]
    constructor
    · rintro (rfl | ⟨hm, _⟩)
      · exact Or.inl rfl
      · exact Or.inr hm
    · rintro (rfl | hm)
      · exact Or.inl rfl
      · by_cases hat : a = t
        · exact Or.inl hat
        · exact Or.inr ⟨hm, by simpa using hat⟩

lemma nodup_firstSeen : ∀ (l : List String), (firstSeen l).Nodup := by
  intro l
  induction l using firstSeen.induct with
  | case1 => simp [firstSeen]
  | case2 t rest ih =>
    rw [firstSeen]
    refine List.nodup_cons.mpr ⟨?_, ih⟩
    rw [mem_firstSeen]
    simp

lemma processTitle_h24 (tfs : Timeframes) (occs : List (TF × NItem)) :
    (processTitle tfs occs).h24 = tfs.h24 := by
  simp only [processTitle]
  split_ifs <;> rfl

lemma dedup_h24_aux (K : List String) (tfs0 : Timeframes) :
    ∀ (tfs : Timeframes),
      (K.foldl (fun cur T => processTitle cur (occsOf tfs0 T)) tfs).h24 = tfs.h24 := by
  induction K with
  | nil => intro tfs; rfl
  | cons T K ih =>
    intro tfs
    rw [List.foldl_cons, ih, processTitle_h24]

end TradingBot

namespace TradingBot

lemma mapFilter {α β : Type} (l : List α) (f : α → β) (p : β → Bool) :
    (l.map f).filter p = (l.filter (fun a => p (f a))).map f := by
  induction l with
  | nil => rfl
  | cons a t ih =>
    simp only [List.map_cons, List.filter_cons]
    by_cases h : p (f a) <;> simp [h, ih]

/-- A run of `list.remove` calls, erase-first-equal per element. -/
def eraseList (l : List NItem) (s : List NItem) : List NItem :=
  s.foldl (fun cur a => cur.erase a) l

lemma removeOccs_eq_eraseList (l : List NItem) (occs : List (TF × NItem)) (tf : TF) :
    removeOccs l occs tf
      = eraseList l ((occs.filter (fun o => o.1 = tf)).map (fun o => o.2)) := by
  induction occs generalizing l with
  | nil => rfl
  | cons o t ih =>
    have ih' : ∀ l', removeOccs l' t tf
        = eraseList l' ((t.filter (fun o => o.1 = tf)).map (fun o => o.2)) := ih
    by_cases h1 : o.1 = tf
    · have hstep : (if o.2 ∈ l then l.erase o.2 else l) = l.erase o.2 := by
        split
        · rfl
        · exact (List.erase_of_not_mem (by assumption)).symm
      calc removeOccs l (o :: t) tf
          = removeOccs (l.erase o.2) t tf := by
            simp only [removeOccs, List.foldl_cons, h1, if_pos, hstep]
        _ = eraseList (l.erase o.2) ((t.filter (fun o => o.1 = tf)).map (fun o => o.2)) :=
            ih' _
        _ = eraseList l (((o :: t).filter (fun o => o.1 = tf)).map (fun o => o.2)) := by
            rw [List.filter_cons_of_pos (by simpa using h1), List.map_cons]
            rfl
    · calc removeOccs l (o :: t) tf
          = removeOccs l t tf := by
            simp only [removeOccs, List.foldl_cons, h1, if_false, if_neg, not_false_iff]
        _ = eraseList l ((t.filter (fun o => o.1 = tf)).map (fun o => o.2)) := ih' _
        _ = eraseList l (((o :: t).filter (fun o => o.1 = tf)).map (fun o => o.2)) := by
            rw [List.filter_cons_of_neg (by simpa using h1)]


lemma eraseList_cons_of_ne {x : NItem} : ∀ {s : List NItem} {l : List NItem},
    (∀ a ∈ s, a ≠ x) → eraseList (x :: l) s = x :: eraseList l s := by
  intro s
  induction s with
  | nil => intro l _; rfl
  | cons a t ih =>
    intro l h
    have hax : a ≠ x := h a (by simp)
    have herase : (x :: l).erase a = x :: l.erase a := by
      rw [List.erase_cons_tail (by simpa using fun hh => hax hh.symm)]
    simp only [eraseList, List.foldl_cons, herase]
    exact ih (fun b hb => h b (by simp [hb]))

lemma eraseList_filter (l : List NItem) (p : NItem → Bool) :
    eraseList l (l.filter p) = l.filter (fun a => !p a) := by
  induction l with
  | nil => rfl
  | cons x xs ih =>
    by_cases hx : p x
    · rw [List.filter_cons_of_pos (by simpa using hx)]
      simp only [eraseList, List.foldl_cons, List.erase_cons_head]
      rw [List.filter_cons_of_neg (by simp [hx])]
      exact ih
    · rw [List.filter_cons_of_neg (by simpa using hx)]
      rw [eraseList_cons_of_ne (fun a ha hax => by
        subst hax
        exact hx (by simpa using List.of_mem_filter ha))]
      rw [List.filter_cons_of_pos (by simp [hx])]
      rw [ih]


lemma part_proj (tf tf' : TF) (l : List NItem) (T : String) :
    (((l.map (Prod.mk tf)).filter (fun o => o.2.title = T)).filter
        (fun o => o.1 = tf')).map (fun o => o.2)
      = if tf = tf' then l.filter (fun i => i.title = T) else [] := by
  induction l with
  | nil => simp
  | cons i t ih =>
    by_cases hT : i.title = T
    · rw [List.map_cons, List.filter_cons_of_pos (by simpa using hT)]
      by_cases htf : tf = tf'
      · rw [List.filter_cons_of_pos (by simpa using htf), List.map_cons, ih,
          if_pos htf, if_pos htf, List.filter_cons_of_pos (by simpa using hT)]
      · rw [List.filter_cons_of_neg (by simpa using htf), ih, if_neg htf, if_neg htf]
    · rw [List.map_cons, List.filter_cons_of_neg (by simpa using hT), ih]
      by_cases htf : tf = tf'
      · rw [if_pos htf, if_pos htf, List.filter_cons_of_neg (by simpa using hT)]
      · rw [if_neg htf, if_neg htf]

lemma occs_proj (tfs : Timeframes) (T : String) (tf' : TF) :
    ((occsOf tfs T).filter (fun o => o.1 = tf')).map (fun o => o.2)
      = (if tf' = TF.t30 then tfs.d30.filter (fun i => i.title = T) else []) ++
        (if tf' = TF.t7 then tfs.d7.filter (fun i => i.title = T) else []) ++
        (if tf' = TF.t24 then tfs.h24.filter (fun i => i.title = T) else []) := by
  simp only [occsOf, tfItems, List.filter_append, List.map_append,
    part_proj TF.t30 tf', part_proj TF.t7 tf', part_proj TF.t24 tf']
  cases tf' <;> simp

lemma mem_occs_fst (tfs : Timeframes) (T : String) (tf' : TF) :
    tf' ∈ (occsOf tfs T).map Prod.fst ↔
      (tf' = TF.t30 ∧ T ∈ titlesOf tfs.d30) ∨
      (tf' = TF.t7 ∧ T ∈ titlesOf tfs.d7) ∨
      (tf' = TF.t24 ∧ T ∈ titlesOf tfs.h24) := by
  simp only [occsOf, tfItems, titlesOf, List.mem_map, List.mem_filter,
    List.mem_append]
  constructor
  · rintro ⟨o, ⟨hmem, hT⟩, hfst⟩
    rcases hmem with (⟨i, hi, heq⟩ | ⟨i, hi, heq⟩) | ⟨i, hi, heq⟩ <;> subst heq
    · exact Or.inl ⟨hfst.symm, i, hi, by simpa using hT⟩
    · exact Or.inr (Or.inl ⟨hfst.symm, i, hi, by simpa using hT⟩)
    · exact Or.inr (Or.inr ⟨hfst.symm, i, hi, by simpa using hT⟩)
  · rintro (⟨rfl, i, hi, hT⟩ | ⟨rfl, i, hi, hT⟩ | ⟨rfl, i, hi, hT⟩)
    · exact ⟨(TF.t30, i), ⟨Or.inl (Or.inl ⟨i, hi, rfl⟩), by simpa using hT⟩, rfl⟩
    · exact ⟨(TF.t7, i), ⟨Or.inl (Or.inr ⟨i, hi, rfl⟩), by simpa using hT⟩, rfl⟩
    · exact ⟨(TF.t24, i), ⟨Or.inr ⟨i, hi, rfl⟩, by simpa using hT⟩, rfl⟩

lemma one_lt_length_of_two_mem {α : Type} {a b : α} {l : List α}
    (ha : a ∈ l) (hb : b ∈ l) (hab : a ≠ b) : 1 < l.length := by
  cases l with
  | nil => simp at ha
  | cons x t =>
    cases t with
    | nil =>
      simp only [List.mem_singleton] at ha hb
      exact absurd (ha.trans hb.symm) hab
    | cons y u =>
      simp only [List.length_cons]
      omega


/-- The state of the buckets after the loop has handled the titles in `S`:
each bucket keeps an item unless its title was processed and the
corresponding removal condition held. -/
def stateS (tfs : Timeframes) (S : List String) : Timeframes :=
  { d30 := tfs.d30.filter (fun i =>
      ¬(i.title ∈ S ∧ (i.title ∈ titlesOf tfs.h24 ∨ i.title ∈ titlesOf tfs.d7))),
    d7 := tfs.d7.filter (fun i => ¬(i.title ∈ S ∧ i.title ∈ titlesOf tfs.h24)),
    h24 := tfs.h24 }

lemma timeframes_ext {a b : Timeframes} (h30 : a.d30 = b.d30) (h7 : a.d7 = b.d7)
    (h24 : a.h24 = b.h24) : a = b := by
  cases a; cases b; simp_all

lemma t24_mem_occs_iff {tfs : Timeframes} {T : String} :
    TF.t24 ∈ (occsOf tfs T).map Prod.fst ↔ T ∈ titlesOf tfs.h24 := by
  rw [mem_occs_fst]; simp

lemma t7_mem_occs_iff {tfs : Timeframes} {T : String} :
    TF.t7 ∈ (occsOf tfs T).map Prod.fst ↔ T ∈ titlesOf tfs.d7 := by
  rw [mem_occs_fst]; simp

lemma t30_mem_occs_iff {tfs : Timeframes} {T : String} :
    TF.t30 ∈ (occsOf tfs T).map Prod.fst ↔ T ∈ titlesOf tfs.d30 := by
  rw [mem_occs_fst]; simp

lemma occs_snd_t7 (tfs : Timeframes) (T : String) :
    ((occsOf tfs T).filter (fun o => o.1 = TF.t7)).map (fun o => o.2)
      = tfs.d7.filter (fun i => i.title = T) := by
  rw [occs_proj]; simp

lemma occs_snd_t30 (tfs : Timeframes) (T : String) :
    ((occsOf tfs T).filter (fun o => o.1 = TF.t30)).map (fun o => o.2)
      = tfs.d30.filter (fun i => i.title = T) := by
  rw [occs_proj]; simp


lemma remove_d7_state (tfs : Timeframes) (T : String) (S : List String)
    (hT : T ∉ S) (h24 : T ∈ titlesOf tfs.h24) :
    removeOccs ((stateS tfs S).d7) (occsOf tfs T) TF.t7 = (stateS tfs (S ++ [T])).d7 := by
  rw [removeOccs_eq_eraseList, occs_snd_t7]
  have hfilter : tfs.d7.filter (fun i => i.title = T)
      = ((stateS tfs S).d7).filter (fun i => i.title = T) := by
    rw [stateS]
    rw [List.filter_filter]
    refine (List.filter_congr fun i hi => ?_).symm
    by_cases hiT : i.title = T
    · simp [hiT, hT]
    · simp [hiT]
  rw [hfilter, eraseList_filter, stateS, stateS, List.filter_filter]
  refine List.filter_congr fun i hi => ?_
  by_cases hiT : i.title = T
  · simp [hiT, h24]
  · simp [hiT, hT]

lemma remove_d30_state (tfs : Timeframes) (T : String) (S : List String)
    (hT : T ∉ S) (hcond : T ∈ titlesOf tfs.h24 ∨ T ∈ titlesOf tfs.d7) :
    removeOccs ((stateS tfs S).d30) (occsOf tfs T) TF.t30
      = (stateS tfs (S ++ [T])).d30 := by
  rw [removeOccs_eq_eraseList, occs_snd_t30]
  have hfilter : tfs.d30.filter (fun i => i.title = T)
      = ((stateS tfs S).d30).filter (fun i => i.title = T) := by
    rw [stateS]
    rw [List.filter_filter]
    refine (List.filter_congr fun i hi => ?_).symm
    by_cases hiT : i.title = T
    · simp [hiT, hT]
    · simp [hiT]
  rw [hfilter, eraseList_filter, stateS, stateS, List.filter_filter]
  refine List.filter_congr fun i hi => ?_
  by_cases hiT : i.title = T
  · simp [hiT, hcond]
  · simp [hiT, hT]

lemma stateS_snoc_d7_eq (tfs : Timeframes) (T : String) (S : List String)
    (h : ¬(T ∈ titlesOf tfs.h24 ∧ T ∈ titlesOf tfs.d7)) :
    (stateS tfs (S ++ [T])).d7 = (stateS tfs S).d7 := by
  rw [stateS, stateS]
  refine List.filter_congr fun i hi => ?_
  by_cases hiT : i.title = T
  · have hc7 : T ∈ titlesOf tfs.d7 := List.mem_map.mpr ⟨i, hi, hiT⟩
    have hc24 : T ∉ titlesOf tfs.h24 := fun hc => h ⟨hc, hc7⟩
    simp [hiT, hc24]
  · simp [hiT]

lemma stateS_snoc_d30_eq (tfs : Timeframes) (T : String) (S : List String)
    (h : ¬(T ∈ titlesOf tfs.d30 ∧ (T ∈ titlesOf tfs.h24 ∨ T ∈ titlesOf tfs.d7))) :
    (stateS tfs (S ++ [T])).d30 = (stateS tfs S).d30 := by
  rw [stateS, stateS]
  refine List.filter_congr fun i hi => ?_
  by_cases hiT : i.title = T
  · have hc30 : T ∈ titlesOf tfs.d30 := List.mem_map.mpr ⟨i, hi, hiT⟩
    have hcn : ¬(T ∈ titlesOf tfs.h24 ∨ T ∈ titlesOf tfs.d7) := fun hc => h ⟨hc30, hc⟩
    simp [hiT, hcn]
  · simp [hiT]


lemma processTitle_nofire (tfs0 : Timeframes) (occs : List (TF × NItem))
    (hc1 : ¬(TF.t24 ∈ occs.map Prod.fst ∧ TF.t7 ∈ occs.map Prod.fst))
    (hc2 : ¬(TF.t24 ∈ occs.map Prod.fst ∧ TF.t30 ∈ occs.map Prod.fst))
    (hc3 : ¬(TF.t7 ∈ occs.map Prod.fst ∧ TF.t30 ∈ occs.map Prod.fst ∧
             TF.t24 ∉ occs.map Prod.fst)) :
    processTitle tfs0 occs = tfs0 := by
  by_cases hg : occs.length ≤ 1
  · simp only [processTitle, if_pos hg]
  · simp only [processTitle, if_neg hg]
    rw [if_neg hc1, if_neg hc2, if_neg hc3]

lemma length_not_le_one {tfs : Timeframes} {T : String} {tfa tfb : TF}
    (hne : tfa ≠ tfb) (ha : tfa ∈ (occsOf tfs T).map Prod.fst)
    (hb : tfb ∈ (occsOf tfs T).map Prod.fst) : ¬ (occsOf tfs T).length ≤ 1 := by
  intro hle
  have h := one_lt_length_of_two_mem ha hb hne
  rw [List.length_map] at h
  omega

lemma processTitle_state (tfs : Timeframes) (S : List String) (T : String)
    (hT : T ∉ S) :
    processTitle (stateS tfs S) (occsOf tfs T) = stateS tfs (S ++ [T]) := by
  have h24 := @t24_mem_occs_iff tfs T
  have h7 := @t7_mem_occs_iff tfs T
  have h30 := @t30_mem_occs_iff tfs T
  by_cases c24 : T ∈ titlesOf tfs.h24 <;> by_cases c7 : T ∈ titlesOf tfs.d7 <;>
    by_cases c30 : T ∈ titlesOf tfs.d30
  · -- c24, c7, c30: branches 1 and 2 fire
    have hg := length_not_le_one (by decide : TF.t24 ≠ TF.t7) (h24.mpr c24) (h7.mpr c7)
    simp only [processTitle, if_neg hg]
    rw [if_neg (fun hc => hc.2.2 (h24.mpr c24)),
      if_pos (⟨h24.mpr c24, h30.mpr c30⟩ : TF.t24 ∈ (occsOf tfs T).map Prod.fst ∧
        TF.t30 ∈ (occsOf tfs T).map Prod.fst),
      if_pos (⟨h24.mpr c24, h7.mpr c7⟩ : TF.t24 ∈ (occsOf tfs T).map Prod.fst ∧
        TF.t7 ∈ (occsOf tfs T).map Prod.fst)]
    exact timeframes_ext (remove_d30_state tfs T S hT (Or.inl c24))
      (remove_d7_state tfs T S hT c24) rfl
  · -- c24, c7, ¬c30: only branch 1 fires
    have hg := length_not_le_one (by decide : TF.t24 ≠ TF.t7) (h24.mpr c24) (h7.mpr c7)
    simp only [processTitle, if_neg hg]
    rw [if_neg (fun hc => c30 (h30.mp hc.2.1)), if_neg (fun hc => c30 (h30.mp hc.2)),
      if_pos (⟨h24.mpr c24, h7.mpr c7⟩ : TF.t24 ∈ (occsOf tfs T).map Prod.fst ∧
        TF.t7 ∈ (occsOf tfs T).map Prod.fst)]
    exact timeframes_ext
      (stateS_snoc_d30_eq tfs T S (fun hc => c30 hc.1)).symm
      (remove_d7_state tfs T S hT c24) rfl
  · -- c24, ¬c7, c30: only branch 2 fires
    have hg := length_not_le_one (by decide : TF.t24 ≠ TF.t30) (h24.mpr c24) (h30.mpr c30)
    simp only [processTitle, if_neg hg]
    rw [if_neg (fun hc => c7 (h7.mp hc.1)),
      if_pos (⟨h24.mpr c24, h30.mpr c30⟩ : TF.t24 ∈ (occsOf tfs T).map Prod.fst ∧
        TF.t30 ∈ (occsOf tfs T).map Prod.fst),
      if_neg (fun hc => c7 (h7.mp hc.2))]
    exact timeframes_ext (remove_d30_state tfs T S hT (Or.inl c24))
      (stateS_snoc_d7_eq tfs T S (fun hc => c7 hc.2)).symm rfl
  · -- c24, ¬c7, ¬c30: nothing fires
    rw [processTitle_nofire _ _ (fun hc => c7 (h7.mp hc.2))
      (fun hc => c30 (h30.mp hc.2)) (fun hc => c7 (h7.mp hc.1))]
    exact (timeframes_ext (stateS_snoc_d30_eq tfs T S (fun hc => c30 hc.1))
      (stateS_snoc_d7_eq tfs T S (fun hc => c7 hc.2)) rfl).symm
  · -- ¬c24, c7, c30: only branch 3 fires
    have hg := length_not_le_one (by decide : TF.t7 ≠ TF.t30) (h7.mpr c7) (h30.mpr c30)
    simp only [processTitle, if_neg hg]
    rw [if_pos (⟨h7.mpr c7, h30.mpr c30, fun hc => c24 (h24.mp hc)⟩ :
        TF.t7 ∈ (occsOf tfs T).map Prod.fst ∧ TF.t30 ∈ (occsOf tfs T).map Prod.fst ∧
        TF.t24 ∉ (occsOf tfs T).map Prod.fst),
      if_neg (fun hc => c24 (h24.mp hc.1)), if_neg (fun hc => c24 (h24.mp hc.1))]
    exact timeframes_ext (remove_d30_state tfs T S hT (Or.inr c7))
      (stateS_snoc_d7_eq tfs T S (fun hc => c24 hc.1)).symm rfl
  · -- ¬c24, c7, ¬c30: nothing fires
    rw [processTitle_nofire _ _ (fun hc => c24 (h24.mp hc.1))
      (fun hc => c24 (h24.mp hc.1)) (fun hc => c30 (h30.mp hc.2.1))]
    exact (timeframes_ext (stateS_snoc_d30_eq tfs T S (fun hc => c30 hc.1))
      (stateS_snoc_d7_eq tfs T S (fun hc => c24 hc.1)) rfl).symm
  · -- ¬c24, ¬c7, c30: nothing fires
    rw [processTitle_nofire _ _ (fun hc => c24 (h24.mp hc.1))
      (fun hc => c24 (h24.mp hc.1)) (fun hc => c7 (h7.mp hc.1))]
    exact (timeframes_ext (stateS_snoc_d30_eq tfs T S
        (fun hc => hc.2.elim c24 c7))
      (stateS_snoc_d7_eq tfs T S (fun hc => c24 hc.1)) rfl).symm
  · -- ¬c24, ¬c7, ¬c30: nothing fires
    rw [processTitle_nofire _ _ (fun hc => c24 (h24.mp hc.1))
      (fun hc => c24 (h24.mp hc.1)) (fun hc => c7 (h7.mp hc.1))]
    exact (timeframes_ext (stateS_snoc_d30_eq tfs T S (fun hc => c30 hc.1))
      (stateS_snoc_d7_eq tfs T S (fun hc => c24 hc.1)) rfl).symm


lemma foldl_state (tfs : Timeframes) : ∀ (K S : List String), K.Nodup →
    (∀ T ∈ K, T ∉ S) →
    K.foldl (fun cur T => processTitle cur (occsOf tfs T)) (stateS tfs S)
      = stateS tfs (S ++ K) := by
  intro K
  induction K with
  | nil => intro S _ _; simp
  | cons T K ih =>
    intro S hnd hdisj
    rw [List.foldl_cons, processTitle_state tfs S T (hdisj T (by simp))]
    have hdisj2 : ∀ U ∈ K, U ∉ S ++ [T] := by
      intro U hU hmem
      rcases List.mem_append.mp hmem with h | h
      · exact hdisj U (List.mem_cons_of_mem _ hU) h
      · have hUT : U = T := by simpa using h
        subst hUT
        exact (List.nodup_cons.mp hnd).1 hU
    rw [ih (S ++ [T]) (List.nodup_cons.mp hnd).2 hdisj2]
    congr 1
    simp

lemma stateS_nil (tfs : Timeframes) : stateS tfs [] = tfs := by
  refine timeframes_ext ?_ ?_ rfl <;> simp [stateS]

/-- The characterisation of the cross-timeframe dedup: the 24H bucket is
untouched; the 7D bucket loses exactly the titles also present in 24H; the
30D bucket loses exactly the titles also present in 24H or 7D. -/
theorem dedup_across_eq (tfs : Timeframes) :
    dedup_across_timeframes tfs
      = stateS tfs (firstSeen ((tfItems tfs).map (fun o => o.2.title))) := by
  have h := foldl_state tfs (firstSeen ((tfItems tfs).map (fun o => o.2.title))) []
    (nodup_firstSeen _) (by simp)
  rw [stateS_nil tfs, List.nil_append] at h
  rw [dedup_across_timeframes]
  exact h

lemma title_mem_keys_d30 (tfs : Timeframes) {i : NItem} (hi : i ∈ tfs.d30) :
    i.title ∈ firstSeen ((tfItems tfs).map (fun o => o.2.title)) := by
  rw [mem_firstSeen]
  refine List.mem_map.mpr ⟨(TF.t30, i), ?_, rfl⟩
  simp only [tfItems, List.mem_append, List.mem_map]
  exact Or.inl (Or.inl ⟨i, hi, rfl⟩)

lemma title_mem_keys_d7 (tfs : Timeframes) {i : NItem} (hi : i ∈ tfs.d7) :
    i.title ∈ firstSeen ((tfItems tfs).map (fun o => o.2.title)) := by
  rw [mem_firstSeen]
  refine List.mem_map.mpr ⟨(TF.t7, i), ?_, rfl⟩
  simp only [tfItems, List.mem_append, List.mem_map]
  exact Or.inl (Or.inr ⟨i, hi, rfl⟩)

lemma mem_titlesOf {T : String} {l : List NItem} :
    T ∈ titlesOf l ↔ ∃ i ∈ l, i.title = T := by
  simp [titlesOf]

/-- C1: under the nesting precondition (every 24H item is also in the 7D
bucket and every 7D item is also in the 30D bucket), after
`dedup_across_timeframes` every title that occurred in some bucket is
retained exactly in the narrowest input bucket that contained it — a title
in 24H survives only there, a title in 7D but not 24H survives only in 7D,
a title only in 30D stays in 30D — and the total item count never
increases. -/
theorem C1_dedup_narrowest (tfs : Timeframes)
    (_hnest7 : ∀ i ∈ tfs.h24, i ∈ tfs.d7)
    (_hnest30 : ∀ i ∈ tfs.d7, i ∈ tfs.d30) :
    (∀ T : String,
      (T ∈ titlesOf tfs.h24 →
        T ∈ titlesOf (dedup_across_timeframes tfs).h24
        ∧ T ∉ titlesOf (dedup_across_timeframes tfs).d7
        ∧ T ∉ titlesOf (dedup_across_timeframes tfs).d30)
      ∧ (T ∉ titlesOf tfs.h24 → T ∈ titlesOf tfs.d7 →
        T ∈ titlesOf (dedup_across_timeframes tfs).d7
        ∧ T ∉ titlesOf (dedup_across_timeframes tfs).h24
        ∧ T ∉ titlesOf (dedup_across_timeframes tfs).d30)
      ∧ (T ∉ titlesOf tfs.h24 → T ∉ titlesOf tfs.d7 → T ∈ titlesOf tfs.d30 →
        T ∈ titlesOf (dedup_across_timeframes tfs).d30
        ∧ T ∉ titlesOf (dedup_across_timeframes tfs).h24
        ∧ T ∉ titlesOf (dedup_across_timeframes tfs).d7))
    ∧ totalCount (dedup_across_timeframes tfs) ≤ totalCount tfs := by
  rw [dedup_across_eq]
  refine ⟨fun T => ⟨?_, ?_, ?_⟩, ?_⟩
  · intro h24
    refine ⟨h24, ?_, ?_⟩
    · intro hmem
      simp only [stateS] at hmem
      obtain ⟨i, hi, hiT⟩ := mem_titlesOf.mp hmem
      rw [List.mem_filter, decide_eq_true_eq] at hi
      exact hi.2 ⟨title_mem_keys_d7 tfs hi.1, by rw [hiT]; exact h24⟩
    · intro hmem
      simp only [stateS] at hmem
      obtain ⟨i, hi, hiT⟩ := mem_titlesOf.mp hmem
      rw [List.mem_filter, decide_eq_true_eq] at hi
      exact hi.2 ⟨title_mem_keys_d30 tfs hi.1, Or.inl (by rw [hiT]; exact h24)⟩
  · intro hn24 hT7
    refine ⟨?_, hn24, ?_⟩
    · obtain ⟨i, hi, hiT⟩ := mem_titlesOf.mp hT7
      refine mem_titlesOf.mpr ⟨i, ?_, hiT⟩
      simp only [stateS]
      rw [List.mem_filter, decide_eq_true_eq]
      refine ⟨hi, ?_⟩
      rintro ⟨-, h⟩
      exact hn24 (by rw [← hiT]; exact h)
    · intro hmem
      simp only [stateS] at hmem
      obtain ⟨i, hi, hiT⟩ := mem_titlesOf.mp hmem
      rw [List.mem_filter, decide_eq_true_eq] at hi
      exact hi.2 ⟨title_mem_keys_d30 tfs hi.1, Or.inr (by rw [hiT]; exact hT7)⟩
  · intro hn24 hn7 hT30
    refine ⟨?_, hn24, ?_⟩
    · obtain ⟨i, hi, hiT⟩ := mem_titlesOf.mp hT30
      refine mem_titlesOf.mpr ⟨i, ?_, hiT⟩
      simp only [stateS]
      rw [List.mem_filter, decide_eq_true_eq]
      refine ⟨hi, ?_⟩
      rintro ⟨-, h | h⟩
      · exact hn24 (by rw [← hiT]; exact h)
      · exact hn7 (by rw [← hiT]; exact h)
    · intro hmem
      simp only [stateS] at hmem
      obtain ⟨i, hi, hiT⟩ := mem_titlesOf.mp hmem
      exact hn7 (mem_titlesOf.mpr ⟨i, (List.mem_filter.mp hi).1, hiT⟩)
  · simp only [stateS, totalCount]
    exact Nat.add_le_add (Nat.add_le_add (List.length_filter_le _ _)
      (List.length_filter_le _ _)) le_rfl

/-- A concrete nested input: title a in all three windows, b in 7D and 30D,
c only in 30D. -/
def tfsNested : Timeframes :=
  { d30 := [⟨"a", 3⟩, ⟨"b", 2⟩, ⟨"c", 1⟩],
    d7 := [⟨"a", 3⟩, ⟨"b", 2⟩],
    h24 := [⟨"a", 3⟩] }

/-- Witness for C1 at the concrete nested input: the preconditions hold and
title b survives in 7D, is gone from 30D, and the count shrank. -/
theorem C1_dedup_narrowest_witness :
    ((∀ i ∈ tfsNested.h24, i ∈ tfsNested.d7)
      ∧ (∀ i ∈ tfsNested.d7, i ∈ tfsNested.d30))
    ∧ ("b" ∈ titlesOf (dedup_across_timeframes tfsNested).d7
      ∧ "b" ∉ titlesOf (dedup_across_timeframes tfsNested).d30
      ∧ totalCount (dedup_across_timeframes tfsNested) ≤ totalCount tfsNested) := by
  refine ⟨⟨by decide, by decide⟩, ?_⟩
  have h := C1_dedup_narrowest tfsNested (by decide) (by decide)
  have hb := (h.1 "b").2.1 (by decide) (by decide)
  exact ⟨hb.1, hb.2.2, h.2⟩

/-- C8: the dedup stage never touches the 24H bucket — the returned 24H
list is identical to the input one — and the 7D and 30D lists can only lose
items (each output list is a sublist of its input list). -/
theorem C8_dedup_h24_unchanged (tfs : Timeframes) :
    (dedup_across_timeframes tfs).h24 = tfs.h24
    ∧ (dedup_across_timeframes tfs).d7.Sublist tfs.d7
    ∧ (dedup_across_timeframes tfs).d30.Sublist tfs.d30 := by
  rw [dedup_across_eq]
  exact ⟨rfl, List.filter_sublist _, List.filter_sublist _⟩

end TradingBot
